import Mathlib

/-!
Verification of the mcp-chatbot intent-routing core against its specification.

This file shallowly embeds the Python source of `learning_memory.py`,
`menu_tree.py`, `query_router.py` and `keyword_detector.py` into Lean and
proves (or refutes) the testable properties of the spec.

Modelling conventions:
* Python `str` values are modelled as `String` (stored fields) or `List Char`
  (scanning code); `str` operations such as `lower`, `strip`, `split`,
  substring tests and `re` patterns are compiled to executable Lean functions
  over `List Char`.
* Python's Unicode-aware case folding and the `\w` character class are modelled
  for the character repertoire the chatbot actually handles (ASCII plus the
  Spanish accented letters that appear in the source's own tables).
* Python floats are modelled as exact rationals `ℚ`.
* Python dicts keep insertion order, so they are modelled as association lists
  in source order; the one Python `set` that the code iterates over
  (`LOCATION_NAMES`) is modelled as a list in the source's textual order.
* Functions that catch all exceptions and return a fallback are total in the
  embedding, with the fallback on the corresponding branch.
-/

namespace Chatbot

/-! ## Character primitives -/

/-- Whitespace characters recognised by Python's `str.strip`, `str.split` and
the regex class `\s` (restricted to the repertoire in use). -/
def isPySpace (c : Char) : Bool :=
  c = ' ' || c = '\t' || c = '\n' || c = '\x0d' || c = '\x0b' || c = '\x0c'

/-- Uppercase/lowercase pairs for Python's `str.lower`, covering ASCII and the
accented Spanish letters used by the chatbot. -/
def lowerPairs : List (Char × Char) :=
  [('A', 'a'), ('B', 'b'), ('C', 'c'), ('D', 'd'), ('E', 'e'), ('F', 'f'),
   ('G', 'g'), ('H', 'h'), ('I', 'i'), ('J', 'j'), ('K', 'k'), ('L', 'l'),
   ('M', 'm'), ('N', 'n'), ('O', 'o'), ('P', 'p'), ('Q', 'q'), ('R', 'r'),
   ('S', 's'), ('T', 't'), ('U', 'u'), ('V', 'v'), ('W', 'w'), ('X', 'x'),
   ('Y', 'y'), ('Z', 'z'),
   ('Á', 'á'), ('É', 'é'), ('Í', 'í'), ('Ó', 'ó'), ('Ú', 'ú'),
   ('Ñ', 'ñ'), ('Ü', 'ü')]

/-- Apply a finite character-translation table, leaving unlisted characters
unchanged. -/
def tableMap (tbl : List (Char × Char)) (c : Char) : Char :=
  match List.lookup c tbl with
  | some d => d
  | none => c

/-- Python `str.lower` on a single character. -/
def pyLower (c : Char) : Char :=
  tableMap lowerPairs c

/-- Python `str.upper` on a single character (used by `str.title`). -/
def pyUpper (c : Char) : Char :=
  tableMap (lowerPairs.map (fun p => (p.2, p.1))) c

/-- The accented letters the chatbot's texts may contain beyond ASCII. -/
def accentedLetters : List Char :=
  ['á', 'é', 'í', 'ó', 'ú', 'ñ', 'ü', 'Á', 'É', 'Í', 'Ó', 'Ú', 'Ñ', 'Ü']

/-- Python's regex class `\w` (word character), restricted to the repertoire in
use: ASCII alphanumerics, underscore, and accented Spanish letters. -/
def isWordChar (c : Char) : Bool :=
  c.isAlphanum || c = '_' || accentedLetters.contains c

/-- A letter for the purposes of `str.title` word boundaries. -/
def isCasedChar (c : Char) : Bool :=
  c.isAlpha || accentedLetters.contains c

/-! ## String primitives -/

/-- Does `p` occur as a prefix of `l`? (Python `str.startswith`; also the
building block of substring search. Mirrors Python's convention that the empty
string is a prefix of everything.) -/
def leadsWith : List Char → List Char → Bool
  | [], _ => true
  | _ :: _, [] => false
  | p :: ps, c :: cs => p = c && leadsWith ps cs

/-- Python's `in` substring test: does `p` occur contiguously inside `l`? -/
def containsSub (l p : List Char) : Bool :=
  match l with
  | [] => leadsWith p []
  | _ :: cs => leadsWith p l || containsSub cs p

/-- Python `a in b` on `String`s (`p` inside `s`). -/
def strContains (s p : String) : Bool :=
  containsSub s.toList p.toList

/-- Python `str.endswith`. -/
def trailsWith (p l : List Char) : Bool :=
  leadsWith p.reverse l.reverse

/-- `str.strip` (both ends). -/
def stripL (l : List Char) : List Char :=
  (((l.dropWhile isPySpace).reverse).dropWhile isPySpace).reverse

/-- `str.strip` on `String`. -/
def stripStr (s : String) : String :=
  String.mk (stripL s.toList)

/-- `str.lower` on `String`. -/
def strLower (s : String) : String :=
  String.mk (s.toList.map pyLower)

/-- Helper for `collapseWS`: the boolean records whether the previous kept
character was (the collapsed) whitespace. -/
def collapseWSGo : Bool → List Char → List Char
  | _, [] => []
  | prevSp, c :: cs =>
    if isPySpace c then
      if prevSp then collapseWSGo true cs
      else ' ' :: collapseWSGo true cs
    else c :: collapseWSGo false cs

/-- `re.sub(r'\s+', ' ', text)`: every maximal whitespace run becomes one
space. -/
def collapseWS (l : List Char) : List Char :=
  collapseWSGo false l

/-- Helper for `splitWS`: accumulates the current word reversed. -/
def splitWSGo : List Char → List Char → List (List Char)
  | acc, [] => if acc.isEmpty then [] else [acc.reverse]
  | acc, c :: cs =>
    if isPySpace c then
      if acc.isEmpty then splitWSGo [] cs
      else acc.reverse :: splitWSGo [] cs
    else splitWSGo (c :: acc) cs

/-- Python `str.split()` with no argument: split on whitespace runs, dropping
empty pieces. -/
def splitWS (l : List Char) : List (List Char) :=
  splitWSGo [] l

/-- Helper for `splitLines`. -/
def splitLinesGo : List Char → List Char → List (List Char)
  | acc, [] => [acc.reverse]
  | acc, c :: cs =>
    if c = '\n' then acc.reverse :: splitLinesGo [] cs
    else splitLinesGo (c :: acc) cs

/-- Python `str.split('\n')` (keeps empty pieces). -/
def splitLines (l : List Char) : List (List Char) :=
  splitLinesGo [] l

/-- Python `str.title`: a cased character that follows a non-cased character is
uppercased, every other cased character is lowercased. -/
def pyTitleGo : Bool → List Char → List Char
  | _, [] => []
  | prevCased, c :: cs =>
    if isCasedChar c then
      (if prevCased then pyLower c else pyUpper c) :: pyTitleGo true cs
    else c :: pyTitleGo false cs

/-- `str.title` on `String`. -/
def pyTitle (s : String) : String :=
  String.mk (pyTitleGo false s.toList)

/-- Validity of a digit group for Python `int()`: digits optionally separated
by single underscores (`1_0` parses, `1__0`, `_1`, `1_` do not). -/
def digitsOK : List Char → Bool
  | [] => false
  | [c] => c.isDigit
  | c :: d :: rest =>
    c.isDigit && (if d = '_' then digitsOK rest else digitsOK (d :: rest))

/-- Numeric value of a digit group (underscores skipped). -/
def digitsVal (l : List Char) : Nat :=
  (l.filter Char.isDigit).foldl (fun a c => a * 10 + (c.toNat - '0'.toNat)) 0

/-- Digit-group parsing for Python `int()`. -/
def pyParseDigits (l : List Char) : Option Nat :=
  if digitsOK l then some (digitsVal l) else none

/-- Python `int(text)`: optional surrounding whitespace, optional sign, then
underscore-separated ASCII digit groups.  `none` models `ValueError`. -/
def pyParseInt (l : List Char) : Option Int :=
  match stripL l with
  | '+' :: rest => (pyParseDigits rest).map (fun n => (n : Int))
  | '-' :: rest => (pyParseDigits rest).map (fun n => -(n : Int))
  | rest => (pyParseDigits rest).map (fun n => (n : Int))

/-! ## difflib.SequenceMatcher

`LearningMemory._calculate_similarity` calls
`SequenceMatcher(None, norm1, norm2).ratio()`.  We embed CPython's difflib:
`b2j` position lists (with the `autojunk` popularity purge), the
`find_longest_match` dynamic program with its four extension loops, the
recursive `get_matching_blocks` decomposition, and
`ratio = 2*M / (len(a)+len(b))`.  Since the matcher is constructed with
`isjunk=None`, the junk set `bjunk` is empty. -/

/-- Indexing into a string; the default is irrelevant (all accesses in the
algorithm are in range). -/
def chGet (l : List Char) (i : Nat) : Char :=
  l.getD i ' '

/-- The `autojunk` purge: for sequences of length ≥ 200, elements occurring
more than `len(b) // 100 + 1` times are dropped from `b2j`. -/
def popularB (b : List Char) (c : Char) : Bool :=
  decide (200 ≤ b.length) && decide (b.length / 100 + 1 < b.count c)

/-- The positions `j` of `b2j[a[i]]` visited by the inner loop of
`find_longest_match`: ascending positions of `c` in `b`, restricted to
`[blo, bhi)` by the loop's `continue`/`break`. -/
def rowPositions (b : List Char) (c : Char) (blo bhi : Nat) : List Nat :=
  if popularB b c then []
  else (List.range' blo (bhi - blo)).filter (fun j => chGet b j = c)

/-- One inner-loop step of `find_longest_match`: extend the diagonal run
ending at `(i, j)` using the previous row, record it in the new row, and
update the best match (`if k > bestsize`). -/
def dpRowStep (old : Nat → Nat) (i : Nat)
    (st : (Nat → Nat) × Nat × Nat × Nat) (j : Nat) : (Nat → Nat) × Nat × Nat × Nat :=
  let k := (if j = 0 then 0 else old (j - 1)) + 1
  let nrow := fun x => if x = j then k else st.1 x
  if st.2.2.2 < k then (nrow, i + 1 - k, j + 1 - k, k)
  else (nrow, st.2)

/-- One outer-loop row of `find_longest_match` (`for j in b2j.get(a[i], [])`).
Returns the new `j2len` row together with the updated best match. -/
def dpRow (a b : List Char) (blo bhi : Nat) (old : Nat → Nat)
    (best : Nat × Nat × Nat) (i : Nat) : (Nat → Nat) × Nat × Nat × Nat :=
  (rowPositions b (chGet a i) blo bhi).foldl (dpRowStep old i) (fun _ => 0, best)

/-- The outer loop of `find_longest_match` (`for i in range(alo, ahi)`),
processing `rows` consecutive indices starting at `i`. -/
def dpGo (a b : List Char) (blo bhi : Nat) :
    (Nat → Nat) → Nat × Nat × Nat → Nat → Nat → Nat × Nat × Nat
  | _, best, _, 0 => best
  | old, best, i, rows + 1 =>
    let st := dpRow a b blo bhi old best i
    dpGo a b blo bhi st.1 st.2 (i + 1) rows

/-- The dynamic program of `find_longest_match`, starting from
`besti, bestj, bestsize = alo, blo, 0`. -/
def dpLoop (a b : List Char) (alo ahi blo bhi : Nat) : Nat × Nat × Nat :=
  dpGo a b blo bhi (fun _ => 0) (alo, blo, 0) alo (ahi - alo)

/-- The backward extension loops of `find_longest_match`
(`while besti > alo and bestj > blo and test(b[bestj-1]) and
a[besti-1] == b[bestj-1]`), fuelled. -/
def extendBack (a b : List Char) (test : Char → Bool) (alo blo : Nat) :
    Nat → Nat × Nat × Nat → Nat × Nat × Nat
  | 0, st => st
  | fuel + 1, (bi, bj, bk) =>
    if alo < bi && blo < bj && test (chGet b (bj - 1)) &&
        chGet a (bi - 1) = chGet b (bj - 1) then
      extendBack a b test alo blo fuel (bi - 1, bj - 1, bk + 1)
    else (bi, bj, bk)

/-- The forward extension loops of `find_longest_match`
(`while besti+bestsize < ahi and bestj+bestsize < bhi and ...`), fuelled. -/
def extendFwd (a b : List Char) (test : Char → Bool) (ahi bhi : Nat) :
    Nat → Nat × Nat × Nat → Nat × Nat × Nat
  | 0, st => st
  | fuel + 1, (bi, bj, bk) =>
    if bi + bk < ahi && bj + bk < bhi && test (chGet b (bj + bk)) &&
        chGet a (bi + bk) = chGet b (bj + bk) then
      extendFwd a b test ahi bhi fuel (bi, bj, bk + 1)
    else (bi, bj, bk)

/-- `bjunk` membership: the matcher is constructed with `isjunk=None`, so the
junk set is empty. -/
def bjunkOf (_b : List Char) (_c : Char) : Bool :=
  false

/-- `SequenceMatcher.find_longest_match(alo, ahi, blo, bhi)`: the dynamic
program followed by the two non-junk extension loops and the two junk
extension loops. -/
def findLongestMatch (a b : List Char) (alo ahi blo bhi : Nat) : Nat × Nat × Nat :=
  let junk := bjunkOf b
  let st0 := dpLoop a b alo ahi blo bhi
  let st1 := extendBack a b (fun c => !junk c) alo blo st0.1 st0
  let st2 := extendFwd a b (fun c => !junk c) ahi bhi ahi st1
  let st3 := extendBack a b junk alo blo st2.1 st2
  extendFwd a b junk ahi bhi ahi st3

/-- Total size of all matching blocks found by the recursive decomposition of
`get_matching_blocks` on the range `[alo, ahi) × [blo, bhi)`, fuelled (the
fuel used at top level is always sufficient). -/
def totalMatched (a b : List Char) : Nat → Nat → Nat → Nat → Nat → Nat
  | 0, _, _, _, _ => 0
  | fuel + 1, alo, ahi, blo, bhi =>
    let m := findLongestMatch a b alo ahi blo bhi
    let i := m.1
    let j := m.2.1
    let k := m.2.2
    if k = 0 then 0
    else
      k + (if alo < i && blo < j then totalMatched a b fuel alo i blo j else 0)
        + (if i + k < ahi && j + k < bhi then totalMatched a b fuel (i + k) ahi (j + k) bhi else 0)

/-- `matches`: the summed size of the matching blocks of `a` and `b`. -/
def seqMatches (a b : List Char) : Nat :=
  totalMatched a b (a.length + b.length + 1) 0 a.length 0 b.length

/-- `SequenceMatcher(None, a, b).ratio() = 2*M / (len(a)+len(b))`, and `1.0`
when both strings are empty (difflib's `_calculate_ratio`). -/
def seqRatio (a b : List Char) : ℚ :=
  if a.length + b.length = 0 then 1
  else (2 * seqMatches a b : ℚ) / (a.length + b.length : ℚ)

/-! ## LearningMemory (`learning_memory.py`)

Embeds `STOP_WORDS`, `KEY_TERMS`, `_normalize_text` and
`_calculate_similarity`. -/

/-- `LearningMemory.STOP_WORDS` (a Python set literal; the source lists
`'significa'` twice, which the set collapses). -/
def stopWordsList : List String :=
  ["que", "es", "el", "la", "los", "las", "un", "una", "de", "del", "al",
   "en", "por", "para", "con", "sin", "sobre", "entre", "como", "cual",
   "donde", "cuando", "quien", "cuanto", "me", "te", "se", "nos", "les",
   "lo", "le", "y", "o", "a", "e", "u", "pero", "si", "no", "mas", "muy",
   "tan", "este", "esta", "estos", "estas", "ese", "esa", "esos", "esas",
   "aquel", "aquella", "su", "sus", "mi", "tu", "ser", "estar", "tiene",
   "significa", "significa", "quiere", "decir", "dame", "dime", "mostrar"]

/-- `LearningMemory.KEY_TERMS`. -/
def keyTermsList : List String :=
  ["ipc", "eph", "ecv", "emae", "sipa", "oede", "ripte", "pbg", "ipi",
   "dolar", "blue", "mep", "ccl", "oficial", "censo", "canasta", "basica",
   "empleo", "desempleo", "inflacion", "precios", "salario", "semaforo"]

/-- `STOP_WORDS` as a finite set. -/
def stopWords : Finset String :=
  stopWordsList.toFinset

/-- `KEY_TERMS` as a finite set. -/
def keyTerms : Finset String :=
  keyTermsList.toFinset

/-- Python's binary `min` on rationals (`min(x, 1.0)`), written with an
executable conditional so that concrete instances evaluate in the kernel. -/
def pyMinQ (a b : ℚ) : ℚ :=
  if a ≤ b then a else b

/-- The character-level filter of `re.sub(r'[^\w\s]', '', text)`: keep word
characters and whitespace. -/
def keepWordSpace (c : Char) : Bool :=
  isWordChar c || isPySpace c

/-- The accent-folding table of `_normalize_text`
(`'á'→'a', ..., 'ñ'→'n', 'ü'→'u'`). -/
def accentPairs : List (Char × Char) :=
  [('á', 'a'), ('é', 'e'), ('í', 'i'), ('ó', 'o'), ('ú', 'u'),
   ('ñ', 'n'), ('ü', 'u')]

/-- One character of the sequential `text.replace(old, new)` loop (the seven
replacements have disjoint sources and targets, so they act pointwise). -/
def accentFold (c : Char) : Char :=
  tableMap accentPairs c

/-- `LearningMemory._normalize_text` on `List Char`: lower-case, strip,
remove non-word/non-space characters, collapse whitespace runs to single
spaces, fold accents, and truncate to 500 characters. -/
def pyNormalizeL (l : List Char) : List Char :=
  ((collapseWS ((stripL (l.map pyLower)).filter keepWordSpace)).map accentFold).take 500

/-- `LearningMemory._normalize_text`. -/
def pyNormalize (s : String) : String :=
  String.mk (pyNormalizeL s.toList)

/-- The token set `set(norm.split())` of a normalized text, as strings. -/
def wordSet (norm : List Char) : Finset String :=
  ((splitWS norm).map String.mk).toFinset

/-- `LearningMemory._calculate_similarity`.  Floats are modelled as exact
rationals; the constants `0.5`, `0.2`, `0.3` become `1/2`, `1/5`, `3/10`. -/
def calcSimilarity (text1 text2 : String) : ℚ :=
  let norm1 := pyNormalizeL text1.toList
  let norm2 := pyNormalizeL text2.toList
  let words1 := wordSet norm1
  let words2 := wordSet norm2
  let keyWords1 := words1 ∩ keyTerms
  let keyWords2 := words2 ∩ keyTerms
  if keyWords1 ≠ ∅ ∧ keyWords2 ≠ ∅ ∧ keyWords1 ≠ keyWords2 then 0
  else if (keyWords1 ≠ ∅ ∨ keyWords2 ≠ ∅) ∧ keyWords1 ≠ keyWords2 then 3 / 10
  else
    let contentWords1 := words1 \ stopWords
    let contentWords2 := words2 \ stopWords
    if contentWords1 = ∅ ∨ contentWords2 = ∅ then
      seqRatio norm1 norm2 * (1 / 2)
    else
      let commonContent := contentWords1 ∩ contentWords2
      let contentSimilarity : ℚ :=
        (commonContent.card : ℚ) / ((max contentWords1.card contentWords2.card : ℕ) : ℚ)
      let seqSimilarity := seqRatio norm1 norm2
      let keyBonus : ℚ := if keyWords1 ≠ ∅ ∧ keyWords1 = keyWords2 then 3 / 10 else 0
      pyMinQ (contentSimilarity * (1 / 2) + seqSimilarity * (1 / 5) + keyBonus) 1

/-- The combination formula exactly as the spec's words state it for claim C2:
content-word *Jaccard* overlap (`|A ∩ B| / |A ∪ B|`) × 0.5, plus raw sequence
ratio × 0.2, plus a 0.3 bonus when the non-empty key-term sets are equal,
clipped to 1.  (To be compared against `calcSimilarity`, which the source
computes differently.) -/
def claimC2Formula (text1 text2 : String) : ℚ :=
  let norm1 := pyNormalizeL text1.toList
  let norm2 := pyNormalizeL text2.toList
  let keyWords1 := wordSet norm1 ∩ keyTerms
  let keyWords2 := wordSet norm2 ∩ keyTerms
  let contentWords1 := wordSet norm1 \ stopWords
  let contentWords2 := wordSet norm2 \ stopWords
  let jaccard : ℚ :=
    ((contentWords1 ∩ contentWords2).card : ℚ) / ((contentWords1 ∪ contentWords2).card : ℚ)
  let keyBonus : ℚ := if keyWords1 ≠ ∅ ∧ keyWords1 = keyWords2 then 3 / 10 else 0
  pyMinQ (jaccard * (1 / 2) + seqRatio norm1 norm2 * (1 / 5) + keyBonus) 1

/-- The combination formula of claim C2 amended to what the source computes:
the content-word coefficient is `|A ∩ B| / max(|A|, |B|)` (an overlap
coefficient), not the Jaccard index `|A ∩ B| / |A ∪ B|`. -/
def claimC2AmendedFormula (text1 text2 : String) : ℚ :=
  let norm1 := pyNormalizeL text1.toList
  let norm2 := pyNormalizeL text2.toList
  let keyWords1 := wordSet norm1 ∩ keyTerms
  let keyWords2 := wordSet norm2 ∩ keyTerms
  let contentWords1 := wordSet norm1 \ stopWords
  let contentWords2 := wordSet norm2 \ stopWords
  let overlap : ℚ :=
    ((contentWords1 ∩ contentWords2).card : ℚ) /
      ((max contentWords1.card contentWords2.card : ℕ) : ℚ)
  let keyBonus : ℚ := if keyWords1 ≠ ∅ ∧ keyWords1 = keyWords2 then 3 / 10 else 0
  pyMinQ (overlap * (1 / 2) + seqRatio norm1 norm2 * (1 / 5) + keyBonus) 1

/-- C1: if both input texts have non-empty and unequal intersections of their
normalized token sets with `KEY_TERMS`, `_calculate_similarity` returns
exactly `0.0`. -/
theorem C1_key_term_veto (t1 t2 : String)
    (h1 : wordSet (pyNormalizeL t1.toList) ∩ keyTerms ≠ ∅)
    (h2 : wordSet (pyNormalizeL t2.toList) ∩ keyTerms ≠ ∅)
    (hne : wordSet (pyNormalizeL t1.toList) ∩ keyTerms ≠
           wordSet (pyNormalizeL t2.toList) ∩ keyTerms) :
    calcSimilarity t1 t2 = 0 := by
  unfold calcSimilarity
  exact if_pos ⟨h1, h2, hne⟩

/-- Witness for C1 at the spec's own example:
`similarity("qué es el IPC", "qué es el EPH") == 0.0`. -/
theorem C1_key_term_veto_witness :
    wordSet (pyNormalizeL ("qué es el IPC").toList) ∩ keyTerms ≠ ∅ ∧
    wordSet (pyNormalizeL ("qué es el EPH").toList) ∩ keyTerms ≠ ∅ ∧
    calcSimilarity "qué es el IPC" "qué es el EPH" = 0 :=
  ⟨by decide, by decide,
    C1_key_term_veto "qué es el IPC" "qué es el EPH" (by decide) (by decide) (by decide)⟩

/-- Counterexample to C2 as stated: for `"perro gato"` vs `"gato casa"` the
claim's hypotheses hold (equal—here empty—key-term sets, non-empty content
word sets), yet `_calculate_similarity` does not equal the claimed
Jaccard-based combination (the source divides by `max(|A|,|B|)`, not by
`|A ∪ B|`). -/
theorem C2_counterexample :
    wordSet (pyNormalizeL ("perro gato").toList) ∩ keyTerms =
      wordSet (pyNormalizeL ("gato casa").toList) ∩ keyTerms ∧
    wordSet (pyNormalizeL ("perro gato").toList) \ stopWords ≠ ∅ ∧
    wordSet (pyNormalizeL ("gato casa").toList) \ stopWords ≠ ∅ ∧
    calcSimilarity "perro gato" "gato casa" ≠ claimC2Formula "perro gato" "gato casa" :=
  ⟨by decide, by decide, by decide, by with_unfolding_all decide⟩

/-- C2 (amended): with equal key-term intersections and non-empty content-word
sets, `_calculate_similarity` equals the combination formula with the
overlap-over-max coefficient in place of the claimed Jaccard index. -/
theorem C2_similarity_combination (t1 t2 : String)
    (hk : wordSet (pyNormalizeL t1.toList) ∩ keyTerms =
          wordSet (pyNormalizeL t2.toList) ∩ keyTerms)
    (hc1 : wordSet (pyNormalizeL t1.toList) \ stopWords ≠ ∅)
    (hc2 : wordSet (pyNormalizeL t2.toList) \ stopWords ≠ ∅) :
    calcSimilarity t1 t2 = claimC2AmendedFormula t1 t2 := by
  simp only [calcSimilarity, claimC2AmendedFormula]
  rw [if_neg (fun h => h.2.2 hk), if_neg (fun h => h.2 hk),
    if_neg (fun h => h.elim hc1 hc2)]

/-- Witness for the amended C2 at `"perro gato"` vs `"gato casa"`. -/
theorem C2_similarity_combination_witness :
    (wordSet (pyNormalizeL ("perro gato").toList) ∩ keyTerms =
      wordSet (pyNormalizeL ("gato casa").toList) ∩ keyTerms) ∧
    calcSimilarity "perro gato" "gato casa" =
      claimC2AmendedFormula "perro gato" "gato casa" :=
  ⟨by decide, C2_similarity_combination "perro gato" "gato casa"
    (by decide) (by decide) (by decide)⟩

/-! ## Structure of normalized text (claim C3)

`_normalize_text` strips before removing punctuation, so its output can keep a
boundary space that the punctuation removal exposes (e.g. `". a" ↦ " a"`).  A
second application therefore amounts to `str.strip`. -/

lemma lookup_mem_cc : ∀ (l : List (Char × Char)) (c d : Char),
    List.lookup c l = some d → (c, d) ∈ l := by
  intro l
  induction l with
  | nil => intro c d h; simp [List.lookup] at h
  | cons p t ih =>
    intro c d h
    rw [List.lookup] at h
    split at h
    · rename_i heq
      simp at heq
      cases p
      simp_all
    · exact List.mem_cons_of_mem _ (ih c d h)

lemma tableMap_of_none {tbl : List (Char × Char)} {c : Char}
    (h : List.lookup c tbl = none) : tableMap tbl c = c := by
  unfold tableMap
  rw [h]

lemma tableMap_of_some {tbl : List (Char × Char)} {c d : Char}
    (h : List.lookup c tbl = some d) : tableMap tbl c = d := by
  unfold tableMap
  rw [h]

lemma pyLower_idem (c : Char) : pyLower (pyLower c) = pyLower c := by
  unfold pyLower
  cases h : List.lookup c lowerPairs with
  | none => simp [tableMap_of_none h]
  | some d =>
    rw [tableMap_of_some h]
    have hm := lookup_mem_cc _ _ _ h
    have hd : List.lookup d lowerPairs = none := by
      fin_cases hm <;> decide
    exact tableMap_of_none hd

lemma accentFold_idem (c : Char) : accentFold (accentFold c) = accentFold c := by
  unfold accentFold
  cases h : List.lookup c accentPairs with
  | none => simp [tableMap_of_none h]
  | some d =>
    rw [tableMap_of_some h]
    have hm := lookup_mem_cc _ _ _ h
    have hd : List.lookup d accentPairs = none := by
      fin_cases hm <;> decide
    exact tableMap_of_none hd

lemma pyLower_accentFold {c : Char} (h : pyLower c = c) :
    pyLower (accentFold c) = accentFold c := by
  unfold accentFold
  cases hl : List.lookup c accentPairs with
  | none => rw [tableMap_of_none hl]; exact h
  | some d =>
    rw [tableMap_of_some hl]
    have hm := lookup_mem_cc _ _ _ hl
    fin_cases hm <;> decide

lemma keepWordSpace_accentFold {c : Char} (h : keepWordSpace c = true) :
    keepWordSpace (accentFold c) = true := by
  unfold accentFold
  cases hl : List.lookup c accentPairs with
  | none => rw [tableMap_of_none hl]; exact h
  | some d =>
    rw [tableMap_of_some hl]
    have hm := lookup_mem_cc _ _ _ hl
    fin_cases hm <;> decide

lemma isPySpace_accentFold (c : Char) : isPySpace (accentFold c) = isPySpace c := by
  unfold accentFold
  cases hl : List.lookup c accentPairs with
  | none => rw [tableMap_of_none hl]
  | some d =>
    rw [tableMap_of_some hl]
    have hm := lookup_mem_cc _ _ _ hl
    fin_cases hm <;> decide

/-- Adjacent characters are never both whitespace. -/
def noTwoSpaces (a b : Char) : Prop :=
  ¬(isPySpace a = true ∧ isPySpace b = true)

lemma collapseWSGo_true_head (l : List Char) :
    ∀ c, (collapseWSGo true l).head? = some c → isPySpace c = false := by
  induction l with
  | nil => simp [collapseWSGo]
  | cons d ds ih =>
    intro c h
    by_cases hd : isPySpace d
    · rw [collapseWSGo, if_pos hd, if_pos rfl] at h
      exact ih c h
    · rw [collapseWSGo, if_neg hd] at h
      simp only [List.head?_cons, Option.some.injEq] at h
      subst h
      simpa using hd

lemma collapseWSGo_chain' (l : List Char) : ∀ b, (collapseWSGo b l).Chain' noTwoSpaces := by
  induction l with
  | nil => intro b; simp [collapseWSGo]
  | cons d ds ih =>
    intro b
    by_cases hd : isPySpace d
    · cases b with
      | true =>
        rw [collapseWSGo, if_pos hd, if_pos rfl]
        exact ih true
      | false =>
        rw [collapseWSGo, if_pos hd, if_neg (by simp)]
        rw [List.chain'_cons']
        refine ⟨fun y hy => ?_, ih true⟩
        have := collapseWSGo_true_head ds y hy
        simp [noTwoSpaces, this]
    · rw [collapseWSGo, if_neg hd]
      rw [List.chain'_cons']
      refine ⟨fun y hy => ?_, ih false⟩
      simp [noTwoSpaces, hd]

lemma collapseWSGo_space (l : List Char) :
    ∀ b c, c ∈ collapseWSGo b l → isPySpace c = true → c = ' ' := by
  induction l with
  | nil => intro b c h; simp [collapseWSGo] at h
  | cons d ds ih =>
    intro b c h hsp
    by_cases hd : isPySpace d
    · cases b with
      | true =>
        rw [collapseWSGo, if_pos hd, if_pos rfl] at h
        exact ih true c h hsp
      | false =>
        rw [collapseWSGo, if_pos hd, if_neg (by simp)] at h
        rcases List.mem_cons.mp h with h | h
        · exact h
        · exact ih true c h hsp
    · rw [collapseWSGo, if_neg hd] at h
      rcases List.mem_cons.mp h with h | h
      · subst h; exact absurd hsp hd
      · exact ih false c h hsp

lemma collapseWSGo_mem (l : List Char) :
    ∀ b c, c ∈ collapseWSGo b l → c = ' ' ∨ c ∈ l := by
  induction l with
  | nil => intro b c h; simp [collapseWSGo] at h
  | cons d ds ih =>
    intro b c h
    by_cases hd : isPySpace d
    · cases b with
      | true =>
        rw [collapseWSGo, if_pos hd, if_pos rfl] at h
        rcases ih true c h with h | h
        · exact Or.inl h
        · exact Or.inr (List.mem_cons_of_mem _ h)
      | false =>
        rw [collapseWSGo, if_pos hd, if_neg (by simp)] at h
        rcases List.mem_cons.mp h with h | h
        · exact Or.inl h
        · rcases ih true c h with h | h
          · exact Or.inl h
          · exact Or.inr (List.mem_cons_of_mem _ h)
    · rw [collapseWSGo, if_neg hd] at h
      rcases List.mem_cons.mp h with h | h
      · exact Or.inr (h ▸ List.mem_cons_self _ _)
      · rcases ih false c h with h | h
        · exact Or.inl h
        · exact Or.inr (List.mem_cons_of_mem _ h)

lemma collapseWSGo_true_eq_false (l : List Char)
    (h : ∀ c, l.head? = some c → isPySpace c = false) :
    collapseWSGo true l = collapseWSGo false l := by
  cases l with
  | nil => rfl
  | cons d ds =>
    have hd : isPySpace d = false := h d rfl
    rw [collapseWSGo, collapseWSGo, if_neg (by simp [hd]), if_neg (by simp [hd])]

lemma collapseWS_id (l : List Char)
    (hsp : ∀ c ∈ l, isPySpace c = true → c = ' ')
    (hch : l.Chain' noTwoSpaces) : collapseWS l = l := by
  unfold collapseWS
  induction l with
  | nil => rfl
  | cons d ds ih =>
    rw [List.chain'_cons'] at hch
    by_cases hd : isPySpace d
    · have hd' : d = ' ' := hsp d (List.mem_cons_self _ _) hd
      rw [collapseWSGo, if_pos hd, if_neg (by simp)]
      have hds : collapseWSGo true ds = collapseWSGo false ds := by
        apply collapseWSGo_true_eq_false
        intro c hc
        have := hch.1 c hc
        unfold noTwoSpaces at this
        by_contra hcsp
        exact this ⟨hd, by simpa using hcsp⟩
      rw [hds, ih (fun c hc h => hsp c (List.mem_cons_of_mem _ hc) h) hch.2, hd']
    · rw [collapseWSGo, if_neg hd]
      rw [ih (fun c hc h => hsp c (List.mem_cons_of_mem _ hc) h) hch.2]

lemma map_id_mem {f : Char → Char} : ∀ l : List Char, (∀ c ∈ l, f c = c) → l.map f = l := by
  intro l h
  induction l with
  | nil => rfl
  | cons d ds ih =>
    rw [List.map_cons, h d (List.mem_cons_self _ _),
      ih (fun c hc => h c (List.mem_cons_of_mem _ hc))]

lemma stripL_within (l : List Char) : stripL l <:+: l := by
  unfold stripL
  have h1 : l.dropWhile isPySpace <:+ l := List.dropWhile_suffix _
  have h2 : (l.dropWhile isPySpace).reverse.dropWhile isPySpace <:+
      (l.dropWhile isPySpace).reverse := List.dropWhile_suffix _
  have h3 : ((l.dropWhile isPySpace).reverse.dropWhile isPySpace).reverse <+:
      l.dropWhile isPySpace := List.reverse_suffix.mp (by simpa using h2)
  exact h3.isInfix.trans h1.isInfix

/-- Every character of a normalized text is fixed by lower-casing and by
accent folding, survives the punctuation filter, and whitespace is only the
plain space. -/
lemma pyNormalizeL_chars (l : List Char) :
    ∀ c ∈ pyNormalizeL l,
      pyLower c = c ∧ keepWordSpace c = true ∧ accentFold c = c ∧
        (isPySpace c = true → c = ' ') := by
  intro c hc
  unfold pyNormalizeL at hc
  have hc' := List.take_subset _ _ hc
  obtain ⟨e, he, rfl⟩ := List.mem_map.mp hc'
  have hespace : isPySpace e = true → e = ' ' := collapseWSGo_space _ _ _ he
  have heprov : e = ' ' ∨ e ∈ (stripL (l.map pyLower)).filter keepWordSpace :=
    collapseWSGo_mem _ _ _ he
  have hkeep : keepWordSpace e = true := by
    rcases heprov with h | h
    · rw [h]; decide
    · exact (List.mem_filter.mp h).2
  have hlow : pyLower e = e := by
    rcases heprov with h | h
    · rw [h]; decide
    · have hmem := (stripL_within (l.map pyLower)).subset (List.mem_filter.mp h).1
      obtain ⟨d, _, rfl⟩ := List.mem_map.mp hmem
      exact pyLower_idem d
  refine ⟨pyLower_accentFold hlow, keepWordSpace_accentFold hkeep, accentFold_idem e, ?_⟩
  intro hsp
  rw [isPySpace_accentFold] at hsp
  rw [hespace hsp]
  decide

/-- Normalized text never has two adjacent whitespace characters. -/
lemma pyNormalizeL_chain (l : List Char) : (pyNormalizeL l).Chain' noTwoSpaces := by
  unfold pyNormalizeL
  apply List.Chain'.take
  rw [List.chain'_map]
  apply List.Chain'.imp ?_ (collapseWSGo_chain' _ false)
  intro a b h
  unfold noTwoSpaces at h ⊢
  rw [isPySpace_accentFold, isPySpace_accentFold]
  exact h

lemma pyNormalizeL_length (l : List Char) : (pyNormalizeL l).length ≤ 500 := by
  unfold pyNormalizeL
  exact List.length_take_le _ _

/-- A second normalization pass is exactly `str.strip`. -/
lemma pyNormalizeL_pyNormalizeL (l : List Char) :
    pyNormalizeL (pyNormalizeL l) = stripL (pyNormalizeL l) := by
  have hchars := pyNormalizeL_chars l
  have hchain := pyNormalizeL_chain l
  have hlen := pyNormalizeL_length l
  set t := pyNormalizeL l with ht
  rw [pyNormalizeL]
  rw [map_id_mem t (fun c hc => (hchars c hc).1)]
  have hsub : ∀ c ∈ stripL t, c ∈ t := fun c hc => (stripL_within t).subset hc
  rw [List.filter_eq_self.mpr (fun c hc => (hchars c (hsub c hc)).2.1)]
  rw [collapseWS_id _ (fun c hc h => (hchars c (hsub c hc)).2.2.2 h)
    ( List.Chain'.infix hchain (stripL_within t))]
  rw [map_id_mem _ (fun c hc => (hchars c (hsub c hc)).2.2.1)]
  exact List.take_of_length_le (le_trans (stripL_within t).sublist.length_le hlen)

/-- Counterexample to C3 as stated: normalization is not idempotent, because
stripping happens before punctuation removal, so `". a"` normalizes to `" a"`
but renormalizes to `"a"`. -/
theorem C3_counterexample :
    pyNormalize (pyNormalize ". a") ≠ pyNormalize ". a" := by decide

/-- C3 (amended): a second application of `_normalize_text` equals stripping
the first result (so idempotence holds exactly when the normalized text has no
boundary whitespace); accented/punctuated variants normalize to the same key
as their plain form, e.g. `"¿Qué es el IPC?"` and `"que es el ipc"`. -/
theorem C3_normalization_idempotence :
    (∀ x : String, pyNormalize (pyNormalize x) = stripStr (pyNormalize x)) ∧
    pyNormalize "¿Qué es el IPC?" = "que es el ipc" ∧
    pyNormalize "que es el ipc" = "que es el ipc" := by
  refine ⟨fun x => ?_, by decide, by decide⟩
  show String.mk (pyNormalizeL (pyNormalizeL x.toList)) = _
  rw [pyNormalizeL_pyNormalizeL]
  rfl

/-! ## Bounds on the sequence ratio (claim C10)

The matching blocks found by the recursive decomposition are disjoint in each
string, so their total size is at most `min (len a) (len b)` and the ratio
lies in `[0, 1]`. -/

/-- The best match `(besti, bestj, bestsize)` stays inside the search frame. -/
def BestOK (alo ahi blo bhi : Nat) (st : Nat × Nat × Nat) : Prop :=
  alo ≤ st.1 ∧ st.1 + st.2.2 ≤ ahi ∧ blo ≤ st.2.1 ∧ st.2.1 + st.2.2 ≤ bhi

/-- Invariant of a `j2len` row usable at outer index `i`: non-zero entries sit
in `[blo, bhi)`, are bounded by the diagonal length from `blo`, and by the
number of rows processed so far. -/
def RowOK (alo blo bhi i : Nat) (f : Nat → Nat) : Prop :=
  ∀ j, f j ≠ 0 → blo ≤ j ∧ j < bhi ∧ f j ≤ j + 1 - blo ∧ f j ≤ i - alo

lemma foldl_inv {α β : Type} (P : β → Prop) (f : β → α → β) :
    ∀ (l : List α) (init : β), P init →
      (∀ b x, x ∈ l → P b → P (f b x)) → P (l.foldl f init) := by
  intro l
  induction l with
  | nil => intro init h _; exact h
  | cons x xs ih =>
    intro init h hstep
    exact ih (f init x) (hstep init x (List.mem_cons_self _ _) h)
      (fun b y hy hb => hstep b y (List.mem_cons_of_mem _ hy) hb)

lemma rowPositions_bounds {b : List Char} {c : Char} {blo bhi j : Nat}
    (h : j ∈ rowPositions b c blo bhi) : blo ≤ j ∧ j < bhi := by
  unfold rowPositions at h
  split at h
  · simp at h
  · have hj := (List.mem_filter.mp h).1
    have := List.mem_range'_1.mp hj
    omega

lemma dpRowStep_inv {alo ahi blo bhi i : Nat} {old : Nat → Nat}
    (hi : alo ≤ i) (hia : i < ahi) (hold : RowOK alo blo bhi i old)
    {st : (Nat → Nat) × Nat × Nat × Nat} {j : Nat}
    (hj : blo ≤ j) (hj' : j < bhi)
    (hst : RowOK alo blo bhi (i + 1) st.1 ∧ BestOK alo ahi blo bhi st.2) :
    RowOK alo blo bhi (i + 1) (dpRowStep old i st j).1 ∧
      BestOK alo ahi blo bhi (dpRowStep old i st j).2 := by
  obtain ⟨hrow, hbest⟩ := hst
  have hk : (if j = 0 then 0 else old (j - 1)) + 1 ≤ j + 1 - blo ∧
      (if j = 0 then 0 else old (j - 1)) + 1 ≤ i + 1 - alo := by
    split
    · omega
    · rename_i hj0
      by_cases hz : old (j - 1) = 0
      · rw [hz]; omega
      · have := hold (j - 1) hz
        omega
  simp only [dpRowStep]
  set kk := (if j = 0 then 0 else old (j - 1)) + 1 with hkk
  have hrow' : RowOK alo blo bhi (i + 1) (fun x => if x = j then kk else st.1 x) := by
    intro x hx
    simp only at hx
    by_cases hxj : x = j
    · subst hxj
      simp only [eq_self_iff_true, if_true]
      exact ⟨hj, hj', hk.1, hk.2⟩
    · simp only [if_neg hxj] at hx ⊢
      exact hrow x hx
  split
  · rename_i hlt
    refine ⟨hrow', ?_⟩
    unfold BestOK
    simp only
    omega
  · exact ⟨hrow', hbest⟩

lemma dpRow_inv {a b : List Char} {alo ahi blo bhi i : Nat} {old : Nat → Nat}
    {best : Nat × Nat × Nat}
    (hi : alo ≤ i) (hia : i < ahi) (hold : RowOK alo blo bhi i old)
    (hbest : BestOK alo ahi blo bhi best) :
    RowOK alo blo bhi (i + 1) (dpRow a b blo bhi old best i).1 ∧
      BestOK alo ahi blo bhi (dpRow a b blo bhi old best i).2 := by
  unfold dpRow
  refine foldl_inv
    (fun st => RowOK alo blo bhi (i + 1) st.1 ∧ BestOK alo ahi blo bhi st.2)
    (dpRowStep old i) (rowPositions b (chGet a i) blo bhi) ((fun _ => 0), best)
    ⟨fun j hj => absurd rfl hj, hbest⟩ ?_
  intro st j hj hst
  obtain ⟨h1, h2⟩ := rowPositions_bounds hj
  exact dpRowStep_inv hi hia hold h1 h2 hst

lemma dpGo_inv {a b : List Char} {alo ahi blo bhi : Nat} :
    ∀ (rows i : Nat) (old : Nat → Nat) (best : Nat × Nat × Nat),
      alo ≤ i → i + rows ≤ ahi → RowOK alo blo bhi i old →
      BestOK alo ahi blo bhi best →
      BestOK alo ahi blo bhi (dpGo a b blo bhi old best i rows) := by
  intro rows
  induction rows with
  | zero => intro i old best _ _ _ hbest; exact hbest
  | succ n ih =>
    intro i old best hi hrows hold hbest
    rw [dpGo]
    have h := dpRow_inv (a := a) (b := b) hi (by omega) hold hbest
    exact ih (i + 1) _ _ (by omega) (by omega) h.1 h.2

lemma dpLoop_inv {a b : List Char} {alo ahi blo bhi : Nat}
    (h1 : alo ≤ ahi) (h2 : blo ≤ bhi) :
    BestOK alo ahi blo bhi (dpLoop a b alo ahi blo bhi) := by
  unfold dpLoop
  apply dpGo_inv (ahi - alo) alo _ _ (le_refl alo) (by omega)
  · intro j hj; exact absurd rfl hj
  · exact ⟨le_refl alo, show alo + 0 ≤ ahi by omega, le_refl blo,
      show blo + 0 ≤ bhi by omega⟩

lemma extendBack_inv {a b : List Char} {test : Char → Bool} {alo ahi blo bhi : Nat} :
    ∀ (fuel : Nat) (st : Nat × Nat × Nat), BestOK alo ahi blo bhi st →
      BestOK alo ahi blo bhi (extendBack a b test alo blo fuel st) := by
  intro fuel
  induction fuel with
  | zero => intro st h; exact h
  | succ n ih =>
    intro st h
    obtain ⟨bi, bj, bk⟩ := st
    rw [extendBack]
    split
    · rename_i hcond
      simp only [Bool.and_eq_true, decide_eq_true_eq] at hcond
      apply ih
      unfold BestOK at h ⊢
      simp only at h ⊢
      omega
    · exact h

lemma extendFwd_inv {a b : List Char} {test : Char → Bool} {alo ahi blo bhi : Nat} :
    ∀ (fuel : Nat) (st : Nat × Nat × Nat), BestOK alo ahi blo bhi st →
      BestOK alo ahi blo bhi (extendFwd a b test ahi bhi fuel st) := by
  intro fuel
  induction fuel with
  | zero => intro st h; exact h
  | succ n ih =>
    intro st h
    obtain ⟨bi, bj, bk⟩ := st
    rw [extendFwd]
    split
    · rename_i hcond
      simp only [Bool.and_eq_true, decide_eq_true_eq] at hcond
      apply ih
      unfold BestOK at h ⊢
      simp only at h ⊢
      omega
    · exact h

lemma findLongestMatch_bestOK {a b : List Char} {alo ahi blo bhi : Nat}
    (h1 : alo ≤ ahi) (h2 : blo ≤ bhi) :
    BestOK alo ahi blo bhi (findLongestMatch a b alo ahi blo bhi) := by
  unfold findLongestMatch
  exact extendFwd_inv _ _ (extendBack_inv _ _ (extendFwd_inv _ _
    (extendBack_inv _ _ (dpLoop_inv h1 h2))))

lemma totalMatched_le {a b : List Char} :
    ∀ (fuel alo ahi blo bhi : Nat), alo ≤ ahi → blo ≤ bhi →
      totalMatched a b fuel alo ahi blo bhi ≤ min (ahi - alo) (bhi - blo) := by
  intro fuel
  induction fuel with
  | zero => intro alo ahi blo bhi _ _; simp [totalMatched]
  | succ n ih =>
    intro alo ahi blo bhi h1 h2
    have hok := findLongestMatch_bestOK (a := a) (b := b) h1 h2
    simp only [totalMatched]
    set m := findLongestMatch a b alo ahi blo bhi with hm
    obtain ⟨hal, hik, hbl, hjk⟩ := hok
    split
    · omega
    · rename_i hk0
      have hL : (if alo < m.1 && blo < m.2.1 then totalMatched a b n alo m.1 blo m.2.1 else 0) ≤
          min (m.1 - alo) (m.2.1 - blo) := by
        split
        · rename_i hg
          simp only [Bool.and_eq_true, decide_eq_true_eq] at hg
          exact ih alo m.1 blo m.2.1 (by omega) (by omega)
        · omega
      have hR : (if m.1 + m.2.2 < ahi && m.2.1 + m.2.2 < bhi then
            totalMatched a b n (m.1 + m.2.2) ahi (m.2.1 + m.2.2) bhi else 0) ≤
          min (ahi - (m.1 + m.2.2)) (bhi - (m.2.1 + m.2.2)) := by
        split
        · rename_i hg
          simp only [Bool.and_eq_true, decide_eq_true_eq] at hg
          exact ih (m.1 + m.2.2) ahi (m.2.1 + m.2.2) bhi (by omega) (by omega)
        · omega
      omega

lemma two_seqMatches_le (a b : List Char) :
    2 * seqMatches a b ≤ a.length + b.length := by
  unfold seqMatches
  have := totalMatched_le (a := a) (b := b) (a.length + b.length + 1)
    0 a.length 0 b.length (Nat.zero_le _) (Nat.zero_le _)
  omega

lemma seqRatio_nonneg (a b : List Char) : 0 ≤ seqRatio a b := by
  unfold seqRatio
  split
  · norm_num
  · positivity

lemma seqRatio_le_one (a b : List Char) : seqRatio a b ≤ 1 := by
  unfold seqRatio
  split
  · norm_num
  · rename_i hne
    have hpos : (0 : ℚ) < (a.length : ℚ) + (b.length : ℚ) := by
      have : 0 < a.length + b.length := Nat.pos_of_ne_zero hne
      exact_mod_cast this
    rw [div_le_one hpos]
    have := two_seqMatches_le a b
    exact_mod_cast this

lemma pyMinQ_unit (x : ℚ) (hx : 0 ≤ x) : 0 ≤ pyMinQ x 1 ∧ pyMinQ x 1 ≤ 1 := by
  unfold pyMinQ
  split
  · exact ⟨hx, by assumption⟩
  · exact ⟨by norm_num, le_refl 1⟩

/-- C10: `_calculate_similarity` always returns a value in `[0, 1]` (every
return path is `0.0`, `0.3`, a ratio in `[0,1]` halved, or a non-negative sum
clipped at `1.0`), so comparisons with the 0.80/0.90 thresholds are
meaningful. -/
theorem C10_similarity_bounded (t1 t2 : String) :
    0 ≤ calcSimilarity t1 t2 ∧ calcSimilarity t1 t2 ≤ 1 := by
  simp only [calcSimilarity]
  split
  · norm_num
  · split
    · norm_num
    · split
      · constructor
        · have := seqRatio_nonneg (pyNormalizeL t1.toList) (pyNormalizeL t2.toList)
          nlinarith
        · have := seqRatio_le_one (pyNormalizeL t1.toList) (pyNormalizeL t2.toList)
          have := seqRatio_nonneg (pyNormalizeL t1.toList) (pyNormalizeL t2.toList)
          nlinarith
      · refine pyMinQ_unit _ ?_
        apply add_nonneg
        apply add_nonneg
        · positivity
        · have := seqRatio_nonneg (pyNormalizeL t1.toList) (pyNormalizeL t2.toList)
          nlinarith
        · split <;> norm_num

/-! ## MenuTree (`menu_tree.py`)

Embeds `MenuNode`, the node map, `get_node`, `get_root`, `format_menu`,
`_get_info_content` and `get_child_by_number`.  The node map is an
insertion-ordered association list (a Python dict); `format_menu`'s
`try/except` is modelled by totality of the embedding, with the `except`
fallback on the corresponding source branch. -/

/-- `MenuNode`: a node of the menu tree. -/
structure MenuNode where
  id : String
  title : String
  description : String
  action : String
  children : List String
  keywords : List String
  dbQuery : Option String
  tool : Option String
  toolArgs : List (String × String)
  infoText : Option String
deriving DecidableEq, Repr

/-- `MenuTree`: the id-to-node map (insertion-ordered) and the root id. -/
structure MenuTree where
  nodes : List (String × MenuNode)
  rootNodeId : Option String
deriving DecidableEq, Repr

/-- `MenuTree.get_node`: `self.nodes.get(node_id)`. -/
def getNode (tree : MenuTree) (nodeId : String) : Option MenuNode :=
  List.lookup nodeId tree.nodes

/-- `MenuTree.get_root` (an empty root id is falsy in Python). -/
def getRoot (tree : MenuTree) : Option MenuNode :=
  match tree.rootNodeId with
  | some rid => if rid = "" then none else getNode tree rid
  | none => none

/-- The hardcoded three-option fallback menu of `format_menu`. -/
def defaultMenuText : String :=
  "1. 📊 Datos Económicos\n2. 👥 Datos Sociales\n3. ℹ️ Información General"

/-- The 55-character box-drawing separator line of the help text. -/
def sepLine : String := String.mk (List.replicate 55 '═')

/-- `MenuTree._get_info_content`. -/
def infoContent (nodeId : String) : String :=
  if nodeId = "ayuda" then
    "\n" ++
  (sepLine ++ "\n") ++
  "  📖 CÓMO USAR EL CHATBOT\n" ++
  (sepLine ++ "\n") ++
  "\n" ++
  "📌 NAVEGACIÓN POR MENÚ:\n" ++
  "   • Puedes navegar seleccionando números (1, 2, 3...)\n" ++
  "   • O escribiendo palabras clave relacionadas\n" ++
  "\n" ++
  "📌 PREGUNTAS ABIERTAS:\n" ++
  "   • Escribe tu pregunta directamente\n" ++
  "   • El bot detectará palabras clave automáticamente\n" ++
  "   • Buscará en la base de datos de forma inteligente\n" ++
  "\n" ++
  "📌 COMANDOS ESPECIALES:\n" ++
  "   • \"menú\" o \"menu\" → Volver al menú principal\n" ++
  "   • \"atrás\" o \"back\" → Volver al menú anterior\n" ++
  "   • \"ayuda\" → Mostrar esta ayuda\n" ++
  "\n" ++
  "📌 EJEMPLOS DE PREGUNTAS:\n" ++
  "   • \"¿Cuál es el último valor de inflación?\"\n" ++
  "   • \"Muéstrame datos económicos del año 2023\"\n" ++
  "   • \"Información sobre población\"\n" ++
  "   • \"Estructura de las bases de datos\"\n" ++
  "\n" ++
  (sepLine ++ "\n") ++
  ""
  else ""

/-- First-seen-order de-duplication of the children list (the
`seen_children`/`unique_children` loop of `format_menu`). -/
def dedupGo : List String → List String → List String
  | _, [] => []
  | seen, c :: cs =>
    if seen.contains c then dedupGo seen cs
    else c :: dedupGo (c :: seen) cs

/-- De-duplicate preserving first-seen order. -/
def dedupFirstSeen (l : List String) : List String :=
  dedupGo [] l

/-- The technical terms that suppress a child's description line. -/
def techTerms : List String :=
  ["base de datos", "tabla", "datalake", "dwh"]

/-- Is a description "technical" (contains a technical term, lower-cased)? -/
def descIsTechnical (desc : String) : Bool :=
  techTerms.any (fun t => strContains (strLower desc) t)

/-- The numbered-option lines of `format_menu`
(`for i, child_id in enumerate(valid_children, 1)`). -/
def menuLines (tree : MenuTree) : Nat → List String → String
  | _, [] => ""
  | i, cid :: rest =>
    (match getNode tree cid with
     | some child =>
       Nat.repr i ++ ". " ++ child.title ++ "\n" ++
         (if child.description ≠ "" ∧ ¬descIsTechnical child.description then
           "   └─ " ++ child.description ++ "\n"
         else "")
     | none => "") ++ menuLines tree (i + 1) rest

/-- The final strip-and-check of `format_menu`
(`result = menu_text.strip(); if not result: fallback`). -/
def finishMenuText (menuText : String) : String :=
  let result := stripStr menuText
  if result = "" then defaultMenuText else result

/-- The body of `format_menu` once a node has been resolved (`node_id` is the
originally requested id, which Python keeps for `_get_info_content`). -/
def formatMenuBody (tree : MenuTree) (nodeId : String) (node : MenuNode) : String :=
  if node.children ≠ [] then
    let validChildren :=
      (dedupFirstSeen node.children).filter (fun cid => (getNode tree cid).isSome)
    if validChildren = [] then "❌ No hay opciones disponibles en este menú."
    else finishMenuText (menuLines tree 1 validChildren)
  else if node.action = "info" then finishMenuText (infoContent nodeId)
  else if node.action = "query" then
    finishMenuText ("🔍 Buscando información sobre: " ++ node.title)
  else finishMenuText ""

/-- `MenuTree.format_menu`. -/
def formatMenu (tree : MenuTree) (nodeIdArg : Option String) : String :=
  let nid0 := match nodeIdArg with
    | none => tree.rootNodeId
    | some s => some s
  let nid := match nid0 with
    | none => "root"
    | some s => if s = "" then "root" else s
  match getNode tree nid with
  | some node => formatMenuBody tree nid node
  | none =>
    match tree.nodes with
    | [] => defaultMenuText
    | (fid, _) :: _ =>
      match getNode tree fid with
      | some node => formatMenuBody tree nid node
      | none => defaultMenuText

/-- `MenuTree.get_child_by_number`. -/
def getChildByNumber (tree : MenuTree) (nodeId : String) (number : Int) : Option MenuNode :=
  match getNode tree nodeId with
  | none => none
  | some node =>
    if node.children = [] then none
    else if 1 ≤ number ∧ number ≤ (node.children.length : Int) then
      getNode tree (node.children.getD ((number - 1).toNat) "")
    else none

lemma finishMenuText_ne (t : String) : finishMenuText t ≠ "" := by
  simp only [finishMenuText]
  split
  · decide
  · assumption

lemma formatMenuBody_ne (tree : MenuTree) (nodeId : String) (node : MenuNode) :
    formatMenuBody tree nodeId node ≠ "" := by
  simp only [formatMenuBody]
  split
  · split
    · decide
    · exact finishMenuText_ne _
  · split
    · exact finishMenuText_ne _
    · split
      · exact finishMenuText_ne _
      · exact finishMenuText_ne _

/-- C4: `format_menu` returns a non-empty string for every tree state (empty
node map, missing or dangling node id, node with all-dangling children) and
every `node_id` argument; the embedding is total, mirroring the
catch-all `except` fallback, so nothing escapes to the caller. -/
theorem C4_format_menu_nonempty (tree : MenuTree) (nodeIdArg : Option String) :
    formatMenu tree nodeIdArg ≠ "" := by
  simp only [formatMenu]
  split
  · exact formatMenuBody_ne _ _ _
  · split
    · decide
    · split
      · exact formatMenuBody_ne _ _ _
      · decide

/-- A tree whose only node has a dangling child reference. -/
def danglingTree : MenuTree :=
  { nodes := [("p",
      { id := "p", title := "Padre", description := "", action := "menu",
        children := ["x"], keywords := [], dbQuery := none, tool := none,
        toolArgs := [], infoText := none })],
    rootNodeId := some "p" }

/-- Counterexample to C5 as stated: node `"p"` has `k = 1` children and
`n = 1` is in range, yet `get_child_by_number` returns `None` because the
child id at position 0 does not resolve in the node map. -/
theorem C5_counterexample :
    (getNode danglingTree "p").isSome = true ∧
    (getNode danglingTree "p").map (fun n => n.children.length) = some 1 ∧
    getChildByNumber danglingTree "p" 1 = none := by decide

/-- C5 (amended): `get_child_by_number(id, n)` is non-`None` exactly when the
parent resolves, `1 ≤ n ≤ k`, and the child id at position `n-1` also
resolves in the node map; in that case it returns the node mapped to that
id.  Out-of-range `n`, a missing parent, or a dangling child id give
`None`. -/
theorem C5_child_by_number (tree : MenuTree) (nodeId : String) (n : Int) :
    ((getChildByNumber tree nodeId n).isSome ↔
      ∃ node, getNode tree nodeId = some node ∧ 1 ≤ n ∧
        n ≤ (node.children.length : Int) ∧
        (getNode tree (node.children.getD ((n - 1).toNat) "")).isSome) ∧
    (∀ node, getNode tree nodeId = some node → 1 ≤ n →
      n ≤ (node.children.length : Int) →
      getChildByNumber tree nodeId n =
        getNode tree (node.children.getD ((n - 1).toNat) "")) := by
  unfold getChildByNumber
  cases hn : getNode tree nodeId with
  | none =>
    constructor
    · dsimp only
      simp
    · intro node hnode
      exact absurd hnode (by simp)
  | some node =>
    dsimp only
    constructor
    · by_cases hc : node.children = []
      · rw [if_pos hc]
        simp only [Option.isSome_none, Bool.false_eq_true, false_iff]
        rintro ⟨node', hnode', h1, h2, _⟩
        obtain rfl : node = node' := by injection hnode'
        rw [hc] at h2
        simp at h2
        omega
      · rw [if_neg hc]
        by_cases hr : 1 ≤ n ∧ n ≤ (node.children.length : Int)
        · rw [if_pos hr]
          constructor
          · intro h
            exact ⟨node, rfl, hr.1, hr.2, h⟩
          · rintro ⟨node', hnode', _, _, h⟩
            obtain rfl : node = node' := by injection hnode'
            exact h
        · rw [if_neg hr]
          simp only [Option.isSome_none, Bool.false_eq_true, false_iff]
          rintro ⟨node', hnode', h1, h2, _⟩
          obtain rfl : node = node' := by injection hnode'
          exact hr ⟨h1, h2⟩
    · intro node' hnode' h1 h2
      obtain rfl : node = node' := by injection hnode'
      have hc : node.children ≠ [] := by
        intro hc
        rw [hc] at h2
        simp at h2
        omega
      rw [if_neg (fun h => hc h), if_pos ⟨h1, h2⟩]

/-- A small well-formed tree for the C5 witness. -/
def nodeRootEx : MenuNode :=
  { id := "root", title := "Menú Principal", description := "", action := "menu",
    children := ["a"], keywords := [], dbQuery := none, tool := none,
    toolArgs := [], infoText := none }

/-- The single child of `nodeRootEx`. -/
def nodeAEx : MenuNode :=
  { id := "a", title := "Opción A", description := "", action := "menu",
    children := [], keywords := [], dbQuery := none, tool := none,
    toolArgs := [], infoText := none }

/-- The two-node tree for the C5 witness. -/
def smallTree : MenuTree :=
  { nodes := [("root", nodeRootEx), ("a", nodeAEx)], rootNodeId := some "root" }

/-- Witness for the amended C5: selecting option 1 under the root of
`smallTree` returns the node stored at the first child id. -/
theorem C5_child_by_number_witness :
    getChildByNumber smallTree "root" 1 =
      getNode smallTree (nodeRootEx.children.getD (((1 : Int) - 1).toNat) "") :=
  (C5_child_by_number smallTree "root" 1).2 nodeRootEx (by decide) (by decide) (by decide)


/-! ## A small regex matcher

`query_router.py` and `keyword_detector.py` use `re.search` with a fixed set
of patterns built from literals, alternations of literals, `\s+`, `\w+`,
`\w*`, `.*`, `X?` and `\d{n}`.  We compile each pattern to a token list and
give an existence-of-match semantics (equivalent to `re.search` returning a
match, greediness being irrelevant for existence). -/

/-- Tokens of the pattern fragment language. -/
inductive RTok where
  | lit : List Char → RTok
  | alts : List (List Char) → RTok
  | wsPlus : RTok
  | wordPlus : RTok
  | wordStar : RTok
  | anyStar : RTok
  | optChar : Char → RTok
  | digits : Nat → RTok

/-- Fuelled matcher: does some prefix of `cs` match the token list?  Every
recursive call shrinks `toks.length + cs.length`, so the fuel used by
`rmatch` is always sufficient. -/
def matchHereF : Nat → List RTok → List Char → Bool
  | 0, _, _ => false
  | _ + 1, [], _ => true
  | fuel + 1, RTok.lit s :: ts, cs =>
    leadsWith s cs && matchHereF fuel ts (cs.drop s.length)
  | fuel + 1, RTok.alts ss :: ts, cs =>
    ss.any (fun s => leadsWith s cs && matchHereF fuel ts (cs.drop s.length))
  | fuel + 1, RTok.wsPlus :: ts, cs =>
    match cs with
    | [] => false
    | c :: cs' => isPySpace c && (matchHereF fuel ts cs' || matchHereF fuel (RTok.wsPlus :: ts) cs')
  | fuel + 1, RTok.wordPlus :: ts, cs =>
    match cs with
    | [] => false
    | c :: cs' => isWordChar c && (matchHereF fuel ts cs' || matchHereF fuel (RTok.wordPlus :: ts) cs')
  | fuel + 1, RTok.wordStar :: ts, cs =>
    matchHereF fuel ts cs ||
      (match cs with
       | [] => false
       | c :: cs' => isWordChar c && matchHereF fuel (RTok.wordStar :: ts) cs')
  | fuel + 1, RTok.anyStar :: ts, cs =>
    matchHereF fuel ts cs ||
      (match cs with
       | [] => false
       | c :: cs' => !(c = '\n') && matchHereF fuel (RTok.anyStar :: ts) cs')
  | fuel + 1, RTok.optChar ch :: ts, cs =>
    matchHereF fuel ts cs ||
      (match cs with
       | [] => false
       | c :: cs' => c = ch && matchHereF fuel ts cs')
  | fuel + 1, RTok.digits n :: ts, cs =>
    decide (n ≤ cs.length) && (cs.take n).all Char.isDigit && matchHereF fuel ts (cs.drop n)

/-- `re.search` at one starting position, with sufficient fuel. -/
def matchHere (toks : List RTok) (cs : List Char) : Bool :=
  matchHereF (2 * (toks.length + cs.length) + 1) toks cs

/-- `re.search`: does the pattern match starting at some position? -/
def rsearch (toks : List RTok) : List Char → Bool
  | [] => matchHere toks []
  | c :: rest => matchHere toks (c :: rest) || rsearch toks rest

/-! ## QueryRouter (`query_router.py`) -/

/-- Per-tool configuration from `TOOL_MAPPINGS`.  An absent `param_values`
key is modelled by the empty list (the code only iterates over it). -/
structure ToolConfig where
  keywords : List String
  paramName : Option String
  paramValues : List (String × String)
  description : String
deriving DecidableEq, Repr

/-- `TOOL_MAPPINGS` in source (dict-insertion) order. -/
def toolMappings : List (String × ToolConfig) :=
  [("get_censo",
    { keywords := ["poblacion", "población", "habitantes", "censo", "gente",
        "personas", "demografía", "demografico"],
      paramName := some "municipio", paramValues := [],
      description := "datos de población" }),
   ("get_dolar",
    { keywords := ["dolar", "dólar", "cotizacion", "cotización", "blue",
        "oficial", "mep", "ccl", "tipo de cambio"],
      paramName := some "tipo",
      paramValues := [("blue", "blue"), ("oficial", "oficial"),
        ("mep", "mep"), ("ccl", "ccl")],
      description := "cotización del dólar" }),
   ("get_ipc",
    { keywords := ["ipc", "inflacion", "inflación", "precios",
        "indice de precios", "índice de precios"],
      paramName := some "region", paramValues := [],
      description := "índice de precios al consumidor" }),
   ("get_empleo",
    { keywords := ["empleo", "desempleo", "trabajo", "ocupacion", "ocupación",
        "tasa de empleo", "eph", "actividad"],
      paramName := some "provincia", paramValues := [],
      description := "tasas de empleo y desempleo" }),
   ("get_semaforo",
    { keywords := ["semaforo", "semáforo", "indicadores economicos",
        "indicadores económicos", "variacion", "variación"],
      paramName := some "tipo",
      paramValues := [("interanual", "interanual"), ("mensual", "intermensual")],
      description := "semáforo económico" }),
   ("get_patentamientos",
    { keywords := ["patentamiento", "patentamientos", "vehiculos", "vehículos",
        "autos", "motos", "0km", "dnrpa"],
      paramName := some "provincia", paramValues := [],
      description := "patentamientos de vehículos" }),
   ("get_aeropuertos",
    { keywords := ["aeropuerto", "aeropuertos", "vuelos", "pasajeros aereos",
        "anac", "aviacion", "aviación"],
      paramName := some "aeropuerto", paramValues := [],
      description := "pasajeros en aeropuertos" }),
   ("get_combustible",
    { keywords := ["combustible", "nafta", "gasoil", "diesel", "gas",
        "petroleo", "petróleo", "ventas de combustible"],
      paramName := some "provincia", paramValues := [],
      description := "ventas de combustible" }),
   ("get_canasta_basica",
    { keywords := ["canasta", "canasta basica", "canasta básica", "alimentos",
        "costo de vida"],
      paramName := none, paramValues := [],
      description := "canasta básica" }),
   ("get_pobreza",
    { keywords := ["pobreza", "indigencia", "cbt", "cba", "linea de pobreza",
        "línea de pobreza"],
      paramName := some "region", paramValues := [],
      description := "líneas de pobreza e indigencia" }),
   ("get_ecv",
    { keywords := ["ecv", "encuesta de calidad", "calidad de vida",
        "condiciones de vida"],
      paramName := none, paramValues := [],
      description := "encuesta de calidad de vida" }),
   ("get_oede",
    { keywords := ["oede", "observatorio de empleo", "dinamica empresarial",
        "dinámica empresarial"],
      paramName := some "provincia", paramValues := [],
      description := "observatorio de empleo" }),
   ("get_emae",
    { keywords := ["emae", "actividad economica", "actividad económica",
        "estimador mensual", "pbi mensual"],
      paramName := some "categoria", paramValues := [],
      description := "actividad económica mensual" }),
   ("get_pbg",
    { keywords := ["pbg", "producto bruto", "pbi provincial",
        "produccion provincial", "producción provincial"],
      paramName := some "sector", paramValues := [],
      description := "producto bruto geográfico" }),
   ("get_salarios",
    { keywords := ["salario", "salarios", "sueldo", "sueldos", "smvm",
        "minimo vital", "mínimo vital", "ripte", "remuneracion", "remuneración"],
      paramName := some "tipo",
      paramValues := [("smvm", "smvm"), ("minimo", "smvm"), ("mínimo", "smvm"),
        ("ripte", "ripte"), ("indicadores", "indicadores")],
      description := "salarios e índices salariales" }),
   ("get_supermercados",
    { keywords := ["supermercado", "supermercados", "autoservicio",
        "facturacion supermercados", "ventas minoristas"],
      paramName := some "rubro", paramValues := [],
      description := "facturación de supermercados" }),
   ("get_construccion",
    { keywords := ["construccion", "construcción", "ieric", "obras",
        "edificacion", "edificación"],
      paramName := some "tipo",
      paramValues := [("puestos", "puestos"), ("trabajo", "puestos"),
        ("ingresos", "ingresos"), ("actividad", "actividad")],
      description := "industria de la construcción" }),
   ("get_ipc_corrientes",
    { keywords := ["ipc corrientes", "ipicorr", "inflacion corrientes",
        "inflación corrientes", "precios corrientes"],
      paramName := none, paramValues := [],
      description := "IPC específico de Corrientes" })]

/-- `LOCATION_NAMES` (a Python set literal; iteration order is modelled as the
source's textual order). -/
def locationNames : List String :=
  ["goya", "corrientes", "corientes", "corrientrs", "ctes",
   "paso de los libres", "mercedes", "curuzú cuatiá", "curuzu cuatia",
   "bella vista", "esquina", "monte caseros", "santo tomé", "santo tome",
   "virasoro", "ituzaingó", "ituzaingo", "saladas", "empedrado",
   "san roque", "concepción", "concepcion", "lavalle", "santa lucia",
   "mocoretá", "mocoreta", "alvear", "san cosme", "itatí", "itati",
   "buenos aires", "bsas", "bs as", "caba", "capital federal",
   "córdoba", "cordoba", "rosario", "mendoza", "tucumán", "tucuman",
   "santa fe", "salta", "chaco", "misiones", "entre ríos", "entre rios",
   "formosa", "jujuy", "san juan", "san luis", "la rioja", "catamarca",
   "santiago del estero", "neuquén", "neuquen", "río negro", "rio negro",
   "chubut", "santa cruz", "tierra del fuego", "la pampa",
   "capital", "gba", "nea", "noa", "cuyo", "patagonia", "pampeana"]

/-- `LOCATION_CANONICAL`. -/
def locationCanonical : List (String × String) :=
  [("corrientrs", "corrientes"), ("corientes", "corrientes"), ("ctes", "corrientes"),
   ("bsas", "buenos aires"), ("bs as", "buenos aires"), ("capital federal", "caba"),
   ("curuzu cuatia", "curuzú cuatiá"), ("santo tome", "santo tomé"),
   ("ituzaingo", "ituzaingó"), ("concepcion", "concepción"),
   ("mocoreta", "mocoretá"), ("itati", "itatí"),
   ("cordoba", "córdoba"), ("tucuman", "tucumán"),
   ("entre rios", "entre ríos"), ("neuquen", "neuquén"), ("rio negro", "río negro")]

/-- Whole-word search for `re.search(r'\b<kw>\b', q)`, scanning positions with
the previous character's word-ness.  (Sound because every keyword begins and
ends with a `\w` character.) -/
def wwAt (kw : List Char) : List Char → Bool → Bool
  | q, prevIsWord =>
    (!prevIsWord && leadsWith kw q &&
      (match q.drop kw.length with
       | [] => true
       | c :: _ => !isWordChar c)) ||
    (match q with
     | [] => false
     | c :: rest => wwAt kw rest (isWordChar c))

/-- Whole-word occurrence of a keyword in a query. -/
def wholeWord (kw q : List Char) : Bool :=
  wwAt kw q false

/-- Score of one keyword in `detect_tool`: 10 for a whole-word match, 5 for a
plain substring match, 0 otherwise. -/
def keywordScore (queryLower : List Char) (kw : String) : Nat :=
  if containsSub queryLower kw.toList then
    (if wholeWord kw.toList queryLower then 10 else 5)
  else 0

/-- Total keyword score of one tool in `detect_tool`. -/
def toolScore (queryLower : List Char) (cfg : ToolConfig) : Nat :=
  (cfg.keywords.map (keywordScore queryLower)).sum

/-- One step of `detect_tool`'s best-tool loop (`if score > best_score`). -/
def detectStep (queryLower : List Char) (st : Option String × Nat)
    (p : String × ToolConfig) : Option String × Nat :=
  let score := toolScore queryLower p.2
  if st.2 < score then (some p.1, score) else st

/-- `QueryRouter.detect_tool`. -/
def detectTool (query : String) : Option String :=
  let queryLower := query.toList.map pyLower
  let best := toolMappings.foldl (detectStep queryLower) (none, 0)
  if 5 ≤ best.2 then best.1 else none

/-- `QueryRouter.extract_locations`. -/
def extractLocations (query : String) : List String :=
  let queryLower := query.toList.map pyLower
  locationNames.foldl
    (fun found loc =>
      if containsSub queryLower loc.toList then
        let canonical :=
          match List.lookup loc locationCanonical with
          | some c => c
          | none => loc
        if found.contains canonical then found else found ++ [canonical]
      else found) []

/-- `QueryRouter.extract_params`: the first `param_values` key contained in
the lowered query maps `param_name` to its value. -/
def extractParams (query : String) (toolName : String) : List (String × String) :=
  match List.lookup toolName toolMappings with
  | none => []
  | some cfg =>
    let queryLower := query.toList.map pyLower
    match cfg.paramValues.find? (fun kv => containsSub queryLower kv.1.toList) with
    | some kv =>
      match cfg.paramName with
      | some p => [(p, kv.2)]
      | none => []
    | none => []

/-- The comparison regex patterns of `is_comparison_query`, compiled. -/
def comparisonPatterns : List (List RTok) :=
  [[RTok.lit "compara".toList, RTok.wordStar],
   [RTok.lit "diferencia".toList, RTok.wordStar],
   [RTok.lit "vs".toList, RTok.optChar '.'],
   [RTok.lit "entre".toList, RTok.wsPlus, RTok.wordPlus, RTok.wsPlus,
    RTok.lit "y".toList, RTok.wsPlus],
   [RTok.wordPlus, RTok.wsPlus, RTok.lit "y".toList, RTok.wsPlus, RTok.wordPlus],
   [RTok.lit "cual".toList, RTok.anyStar, RTok.lit "mayor".toList],
   [RTok.lit "cual".toList, RTok.anyStar, RTok.lit "menor".toList],
   [RTok.lit "mas".toList, RTok.anyStar, RTok.lit "que".toList],
   [RTok.lit "menos".toList, RTok.anyStar, RTok.lit "que".toList]]

/-- `QueryRouter.is_comparison_query`. -/
def isComparisonQuery (query : String) : Bool :=
  let queryLower := query.toList.map pyLower
  comparisonPatterns.any (fun p => rsearch p queryLower) ||
    decide (2 ≤ (extractLocations query).length)

/-- The external tool layer: `is_available()` and
`execute(name, argsMap) -> string`. -/
structure ToolExec where
  available : Bool
  execute : String → List (String × String) → String

/-- Python dict assignment `d[k] = v` on an association list: replace in
place or append. -/
def dictSet (d : List (String × String)) (k v : String) : List (String × String) :=
  if d.any (fun kv => kv.1 = k) then
    d.map (fun kv => if kv.1 = k then (k, v) else kv)
  else d ++ [(k, v)]

/-- The dict literal `{param_name: location, **params}` (later keys of
`params` override the location). -/
def mergeParams (p loc : String) (params : List (String × String)) :
    List (String × String) :=
  params.foldl (fun d kv => dictSet d kv.1 kv.2) [(p, loc)]

/-- The comparison branch's failure filter
(`result and "No se encontraron" not in result and "Error" not in result`);
note: case-sensitive substring tests. -/
def survivesComparisonFilter (r : String) : Bool :=
  !(r = "") && !strContains r "No se encontraron" && !strContains r "Error"

/-- The single-invocation branches' failure filter
(`result and "No se encontraron" not in result`); `"Error"` is not checked
here. -/
def survivesSingleFilter (r : String) : Bool :=
  !(r = "") && !strContains r "No se encontraron"

/-- `'\n---\n'.join(results)` and friends. -/
def joinSep (sep : String) : List String → String
  | [] => ""
  | [x] => x
  | x :: rest => x ++ sep ++ joinSep sep rest

/-- One line of `_format_comparison`'s table-splicing scan. -/
def spliceLine (lines : List (List Char)) (st : String × Bool) (line : List Char) :
    String × Bool :=
  if containsSub line ['|'] then
    if containsSub line ['-', '-', '-'] then
      if st.2 then st
      else
        let idx := lines.findIdx (fun l => l == line)
        if 0 < idx then
          (st.1 ++ String.mk (lines.getD (idx - 1) []) ++ "\n" ++
            String.mk line ++ "\n", true)
        else st
    else if st.2 && !(stripL line).isEmpty &&
        !containsSub line "Municipio".toList && !containsSub line "Fecha".toList then
      (st.1 ++ String.mk line ++ "\n", st.2)
    else st
  else st

/-- `_format_comparison`'s scan over one result's lines. -/
def spliceResult (st : String × Bool) (r : String) : String × Bool :=
  let lines := splitLines r.toList
  lines.foldl (spliceLine lines) st

/-- `QueryRouter._format_comparison`. -/
def formatComparison (results : List String) (description : String) : String :=
  match results with
  | [r] => r
  | _ =>
    let header := "## 📊 Comparativa de " ++ pyTitle description ++ "\n\n"
    let st := results.foldl spliceResult (header, false)
    let combined :=
      if st.2 then st.1
      else header ++ joinSep "\n---\n" results
    combined ++ "\n\n> Comparativa generada automáticamente."

/-- Python truthiness of the optional `param_name`. -/
def paramNameTruthy : Option String → Bool
  | some p => !(p = "")
  | none => false

/-- The comparison fan-out branch of `route_and_execute`: invoke the tool once
per location, keep the results that survive the failure filter, and combine
them.  The second component records the `execute` invocations. -/
def runComparisonBranch (ex : ToolExec) (toolName p desc : String)
    (locations : List String) (params : List (String × String)) :
    Option (String × String) × List (String × List (String × String)) :=
  let argLists := locations.map (fun loc => mergeParams p loc params)
  let calls := argLists.map (fun args => (toolName, args))
  let results :=
    (argLists.map (fun args => ex.execute toolName args)).filter
      survivesComparisonFilter
  if !results.isEmpty then
    (some (toolName, formatComparison results desc), calls)
  else (none, calls)

/-- A single-invocation branch of `route_and_execute` (both the
one-location case and the no-location case have this shape in the source). -/
def runSingleBranch (ex : ToolExec) (toolName : String)
    (args : List (String × String)) :
    Option (String × String) × List (String × List (String × String)) :=
  let result := ex.execute toolName args
  if survivesSingleFilter result then
    (some (toolName, result), [(toolName, args)])
  else (none, [(toolName, args)])

/-- `QueryRouter.route_and_execute`, instrumented: the second component
records every `tool_executor.execute` invocation (tool name and argument
map), in order. -/
def routeAndExecuteT (ex : ToolExec) (query : String) :
    Option (String × String) × List (String × List (String × String)) :=
  if !ex.available then (none, [])
  else
    match detectTool query with
    | none => (none, [])
    | some toolName =>
      let locations := extractLocations query
      let params := extractParams query toolName
      let cfgOpt := List.lookup toolName toolMappings
      let paramName := match cfgOpt with
        | some c => c.paramName
        | none => none
      let desc := match cfgOpt with
        | some c => c.description
        | none => "datos"
      if isComparisonQuery query && !locations.isEmpty && paramNameTruthy paramName then
        runComparisonBranch ex toolName (paramName.getD "") desc locations params
      else if !locations.isEmpty && paramNameTruthy paramName then
        runSingleBranch ex toolName (dictSet params (paramName.getD "") (locations.headD ""))
      else
        runSingleBranch ex toolName params

/-- `route_and_execute`'s return value. -/
def routeAndExecute (ex : ToolExec) (query : String) : Option (String × String) :=
  (routeAndExecuteT ex query).1

/-- The `execute` invocations made by `route_and_execute`. -/
def routeCalls (ex : ToolExec) (query : String) :
    List (String × List (String × String)) :=
  (routeAndExecuteT ex query).2

/-! ## Claims C6 and C7: failure-marker filtering and comparison fan-out -/

lemma runSingleBranch_spec {ex : ToolExec} {toolName : String}
    {args : List (String × String)} {t r : String}
    (h : (runSingleBranch ex toolName args).1 = some (t, r)) :
    t = toolName ∧ r = ex.execute toolName args ∧
      strContains r "No se encontraron" = false := by
  simp only [runSingleBranch] at h
  split at h
  · rename_i hs
    simp only [Option.some.injEq, Prod.mk.injEq] at h
    obtain ⟨ht, hr⟩ := h
    simp only [survivesSingleFilter, Bool.and_eq_true, Bool.not_eq_true'] at hs
    exact ⟨ht.symm, by rw [hr], by rw [← hr]; exact hs.2⟩
  · simp at h

lemma runComparisonBranch_spec {ex : ToolExec} {toolName p desc : String}
    {locations : List String} {params : List (String × String)} {t r : String}
    (h : (runComparisonBranch ex toolName p desc locations params).1 = some (t, r)) :
    t = toolName ∧
      ∃ rs, rs ≠ [] ∧ (∀ s ∈ rs, survivesComparisonFilter s = true) ∧
        r = formatComparison rs desc := by
  simp only [runComparisonBranch] at h
  split at h
  · rename_i hne
    simp only [Option.some.injEq, Prod.mk.injEq] at h
    obtain ⟨ht, hr⟩ := h
    refine ⟨ht.symm, _, ?_, ?_, hr.symm⟩
    · intro hemp
      rw [hemp] at hne
      simp at hne
    · intro s hs
      exact (List.mem_filter.mp hs).2
  · simp at h

lemma runComparisonBranch_calls (ex : ToolExec) (toolName p desc : String)
    (locations : List String) (params : List (String × String)) :
    (runComparisonBranch ex toolName p desc locations params).2 =
      locations.map (fun loc => (toolName, mergeParams p loc params)) := by
  simp only [runComparisonBranch]
  split <;> simp [List.map_map, Function.comp]

/-- Executor used for the C6 counterexample: every tool call fails with a
lower/upper-case error text. -/
def cexExec6 : ToolExec :=
  { available := true, execute := fun _ _ => "Error al consultar" }

/-- Counterexample to C6 as stated: the query routes to the one-location
branch, whose filter only checks the exact substring `"No se encontraron"`,
so a result containing `"Error"` (hence `"error"` case-insensitively) is
surfaced as a successful `(toolName, resultText)` return. -/
theorem C6_counterexample :
    routeAndExecute cexExec6 "poblacion de goya" =
      some ("get_censo", "Error al consultar") ∧
    strContains (strLower "Error al consultar") "error" = true := by decide

/-- C6 (amended): the router's failure filtering is case-sensitive and
branch-dependent: a surfaced result either comes from a single-invocation
branch — then it provably lacks the exact substring `"No se encontraron"`
(but may contain `"Error"`, `"error"` or `"no se encontraron"`) — or is the
comparison combination of results that each lack both exact substrings
`"No se encontraron"` and `"Error"`. -/
theorem C6_failure_marker_filtering (ex : ToolExec) (q t r : String)
    (h : routeAndExecute ex q = some (t, r)) :
    strContains r "No se encontraron" = false ∨
      ∃ rs d, rs ≠ [] ∧ (∀ s ∈ rs, survivesComparisonFilter s = true) ∧
        r = formatComparison rs d := by
  simp only [routeAndExecute, routeAndExecuteT] at h
  split at h
  · simp at h
  · split at h
    · simp at h
    · split at h
      · obtain ⟨_, rs, hne, hall, hr⟩ := runComparisonBranch_spec h
        exact Or.inr ⟨rs, _, hne, hall, hr⟩
      · split at h
        · exact Or.inl (runSingleBranch_spec h).2.2
        · exact Or.inl (runSingleBranch_spec h).2.2

/-- Witness for the amended C6 at the surfaced error result of
`cexExec6` on `"poblacion de goya"`. -/
theorem C6_failure_marker_filtering_witness :
    strContains "Error al consultar" "No se encontraron" = false ∨
      ∃ rs d, rs ≠ [] ∧ (∀ s ∈ rs, survivesComparisonFilter s = true) ∧
        "Error al consultar" = formatComparison rs d :=
  C6_failure_marker_filtering cexExec6 "poblacion de goya" "get_censo"
    "Error al consultar" (by decide)

lemma containsSub_singleton {l : List Char} {c : Char} :
    containsSub l [c] = true ↔ c ∈ l := by
  induction l with
  | nil => simp [containsSub, leadsWith]
  | cons d ds ih =>
    rw [containsSub]
    simp only [Bool.or_eq_true, ih, List.mem_cons]
    constructor
    · rintro (h | h)
      · simp [leadsWith] at h
        exact Or.inl h
      · exact Or.inr h
    · rintro (h | h)
      · exact Or.inl (by simp [leadsWith, h])
      · exact Or.inr h

lemma splitLinesGo_chars : ∀ (l acc line : List Char) (c : Char),
    line ∈ splitLinesGo acc l → c ∈ line → c ∈ acc.reverse ∨ c ∈ l := by
  intro l
  induction l with
  | nil =>
    intro acc line c hl hc
    simp [splitLinesGo] at hl
    subst hl
    exact Or.inl hc
  | cons d ds ih =>
    intro acc line c hl hc
    by_cases hd : d = '\n'
    · rw [splitLinesGo, if_pos hd] at hl
      rcases List.mem_cons.mp hl with h | h
      · subst h
        exact Or.inl hc
      · rcases ih [] line c h hc with h' | h'
        · simp at h'
        · exact Or.inr (List.mem_cons_of_mem _ h')
    · rw [splitLinesGo, if_neg hd] at hl
      rcases ih (d :: acc) line c hl hc with h' | h'
      · rw [List.reverse_cons] at h'
        rcases List.mem_append.mp h' with h'' | h''
        · exact Or.inl h''
        · simp at h''
          subst h''
          exact Or.inr (List.mem_cons_self _ _)
      · exact Or.inr (List.mem_cons_of_mem _ h')

lemma splitLines_chars {l line : List Char} {c : Char}
    (hl : line ∈ splitLines l) (hc : c ∈ line) : c ∈ l := by
  rcases splitLinesGo_chars l [] line c hl hc with h | h
  · simp at h
  · exact h

lemma foldl_fixed {α β : Type} {f : β → α → β} {l : List α} {init : β}
    (h : ∀ st x, x ∈ l → f st x = st) : l.foldl f init = init := by
  induction l generalizing init with
  | nil => rfl
  | cons x xs ih =>
    rw [List.foldl_cons, h init x (List.mem_cons_self _ _)]
    exact ih (fun st y hy => h st y (List.mem_cons_of_mem _ hy))

lemma spliceLine_fixed {lines : List (List Char)} {st : String × Bool}
    {line : List Char} (h : containsSub line ['|'] = false) :
    spliceLine lines st line = st := by
  unfold spliceLine
  rw [if_neg (by simp [h])]

lemma spliceResult_fixed {st : String × Bool} {r : String}
    (h : containsSub r.toList ['|'] = false) : spliceResult st r = st := by
  unfold spliceResult
  apply foldl_fixed
  intro st' line hline
  apply spliceLine_fixed
  by_contra hc
  rw [Bool.not_eq_false] at hc
  have hmem : '|' ∈ r.toList := splitLines_chars hline (containsSub_singleton.mp hc)
  have := containsSub_singleton.mpr hmem
  rw [h] at this
  exact Bool.false_ne_true this

lemma formatComparison_no_table {r1 r2 d : String}
    (h1 : containsSub r1.toList ['|'] = false)
    (h2 : containsSub r2.toList ['|'] = false) :
    formatComparison [r1, r2] d =
      "## 📊 Comparativa de " ++ pyTitle d ++ "\n\n" ++
        (r1 ++ "\n---\n" ++ r2) ++
        "\n\n> Comparativa generada automáticamente." := by
  simp only [formatComparison]
  rw [List.foldl_cons, spliceResult_fixed h1, List.foldl_cons, spliceResult_fixed h2,
    List.foldl_nil]
  simp [joinSep]

/-- When neither result contains a table marker, the combined comparison is
strictly longer than (hence different from) either individual result. -/
lemma formatComparison_no_table_ne {r1 r2 d : String}
    (h1 : containsSub r1.toList ['|'] = false)
    (h2 : containsSub r2.toList ['|'] = false) :
    formatComparison [r1, r2] d ≠ r1 ∧ formatComparison [r1, r2] d ≠ r2 := by
  rw [formatComparison_no_table h1 h2]
  have hf : 0 < ("\n\n> Comparativa generada automáticamente." : String).length := by decide
  constructor
  · intro heq
    have hlen := congrArg String.length heq
    simp only [String.length_append] at hlen
    omega
  · intro heq
    have hlen := congrArg String.length heq
    simp only [String.length_append] at hlen
    omega

lemma isComparisonQuery_of_two {q : String} {l1 l2 : String}
    (hloc : extractLocations q = [l1, l2]) : isComparisonQuery q = true := by
  unfold isComparisonQuery
  rw [hloc]
  simp

lemma runComparisonBranch_two {ex : ToolExec} {toolName p desc l1 l2 : String}
    {params : List (String × String)}
    (h1 : survivesComparisonFilter (ex.execute toolName (mergeParams p l1 params)) = true)
    (h2 : survivesComparisonFilter (ex.execute toolName (mergeParams p l2 params)) = true) :
    (runComparisonBranch ex toolName p desc [l1, l2] params).1 =
      some (toolName, formatComparison
        [ex.execute toolName (mergeParams p l1 params),
         ex.execute toolName (mergeParams p l2 params)] desc) := by
  simp only [runComparisonBranch, List.map_cons, List.map_nil, List.filter, h1, h2]
  simp

/-- C7 (amended): for a query with exactly two distinct extracted canonical
locations routed to a tool with a (truthy) location parameter, the router
calls `execute` exactly twice, once per location; when both results survive
the (case-sensitive) failure filter it returns their `_format_comparison`
combination, and that combination differs from either individual result
whenever neither result contains the table marker `'|'`. -/
theorem C7_comparison_fanout (ex : ToolExec) (q t p : String) (cfg : ToolConfig)
    (l1 l2 : String)
    (hav : ex.available = true)
    (hdet : detectTool q = some t)
    (hcfg : List.lookup t toolMappings = some cfg)
    (hp : cfg.paramName = some p)
    (hp' : p ≠ "")
    (hloc : extractLocations q = [l1, l2]) :
    routeCalls ex q =
      [(t, mergeParams p l1 (extractParams q t)),
       (t, mergeParams p l2 (extractParams q t))] ∧
    (survivesComparisonFilter
        (ex.execute t (mergeParams p l1 (extractParams q t))) = true →
     survivesComparisonFilter
        (ex.execute t (mergeParams p l2 (extractParams q t))) = true →
      routeAndExecute ex q =
        some (t, formatComparison
          [ex.execute t (mergeParams p l1 (extractParams q t)),
           ex.execute t (mergeParams p l2 (extractParams q t))] cfg.description) ∧
      (containsSub (ex.execute t (mergeParams p l1 (extractParams q t))).toList
          ['|'] = false →
       containsSub (ex.execute t (mergeParams p l2 (extractParams q t))).toList
          ['|'] = false →
        formatComparison
          [ex.execute t (mergeParams p l1 (extractParams q t)),
           ex.execute t (mergeParams p l2 (extractParams q t))] cfg.description ≠
          ex.execute t (mergeParams p l1 (extractParams q t)) ∧
        formatComparison
          [ex.execute t (mergeParams p l1 (extractParams q t)),
           ex.execute t (mergeParams p l2 (extractParams q t))] cfg.description ≠
          ex.execute t (mergeParams p l2 (extractParams q t)))) := by
  have hcmp := isComparisonQuery_of_two hloc
  have key : routeAndExecuteT ex q =
      runComparisonBranch ex t p cfg.description [l1, l2] (extractParams q t) := by
    simp only [routeAndExecuteT, hav, hdet, hcfg, hloc, hcmp, hp]
    simp [paramNameTruthy, hp']
  constructor
  · rw [routeCalls, key, runComparisonBranch_calls]
    simp
  · intro h1 h2
    constructor
    · rw [routeAndExecute, key, runComparisonBranch_two h1 h2]
    · intro hn1 hn2
      exact formatComparison_no_table_ne hn1 hn2

/-- Executor used for the C7 witness: distinct plain-text results per
location. -/
def witExec7 : ToolExec :=
  { available := true,
    execute := fun _ args =>
      if args.contains ("municipio", "goya") then "datos goya"
      else "datos mercedes" }

/-- Witness for the amended C7: on `"comparar poblacion de goya y mercedes"`
the router calls the censo tool exactly twice, once per location. -/
theorem C7_comparison_fanout_witness :
    routeCalls witExec7 "comparar poblacion de goya y mercedes" =
      [("get_censo", [("municipio", "goya")]),
       ("get_censo", [("municipio", "mercedes")])] ∧
    routeAndExecute witExec7 "comparar poblacion de goya y mercedes" =
      some ("get_censo",
        formatComparison ["datos goya", "datos mercedes"] "datos de población") := by
  have h := C7_comparison_fanout witExec7 "comparar poblacion de goya y mercedes"
    "get_censo" "municipio"
    { keywords := ["poblacion", "población", "habitantes", "censo", "gente",
        "personas", "demografía", "demografico"],
      paramName := some "municipio", paramValues := [],
      description := "datos de población" }
    "goya" "mercedes" rfl (by decide) (by decide) rfl (by decide) (by decide)
  refine ⟨?_, ?_⟩
  · rw [h.1]
    decide
  · have h2 := (h.2 (by decide) (by decide)).1
    rw [h2]
    decide

/-- The adversarial first result for the C7 counterexample: a string shaped
exactly like a comparison table, which `_format_comparison` reproduces
verbatim. -/
def cexR0 : String :=
  "## 📊 Comparativa de Datos De Población\n\na|b\n|---|\n\n\n> Comparativa generada automáticamente."

/-- Executor used for the C7 counterexample. -/
def cexExec7 : ToolExec :=
  { available := true,
    execute := fun _ args =>
      if args.contains ("municipio", "goya") then cexR0 else "hola" }

/-- Counterexample to C7's distinctness as stated: both per-location results
survive the failure filter, yet the combined result returned by
`route_and_execute` is *equal* to the first individual result. -/
theorem C7_counterexample :
    extractLocations "comparar poblacion de goya y mercedes" = ["goya", "mercedes"] ∧
    cexExec7.execute "get_censo"
      (mergeParams "municipio" "goya"
        (extractParams "comparar poblacion de goya y mercedes" "get_censo")) = cexR0 ∧
    survivesComparisonFilter cexR0 = true ∧
    survivesComparisonFilter "hola" = true ∧
    routeAndExecute cexExec7 "comparar poblacion de goya y mercedes" =
      some ("get_censo", cexR0) :=
  ⟨by decide, by decide, by decide, by decide, by decide⟩

/-! ## Claim C8: tool-detection threshold -/

lemma le_sum_of_mem : ∀ {l : List Nat} {a : Nat}, a ∈ l → a ≤ l.sum := by
  intro l
  induction l with
  | nil => intro a h; simp at h
  | cons x xs ih =>
    intro a h
    rcases List.mem_cons.mp h with h | h
    · subst h
      simp [List.sum_cons]
    · have := ih h
      simp [List.sum_cons]
      omega

lemma toolScore_zero {ql : List Char} {cfg : ToolConfig}
    (h : ∀ kw ∈ cfg.keywords, containsSub ql kw.toList = false) :
    toolScore ql cfg = 0 := by
  unfold toolScore
  apply List.sum_eq_zero
  intro x hx
  obtain ⟨kw, hkw, rfl⟩ := List.mem_map.mp hx
  have hc := h kw hkw
  unfold keywordScore
  rw [hc]
  simp

lemma detect_foldl_zero {ql : List Char} :
    ∀ (l : List (String × ToolConfig)) (st : Option String × Nat),
      (∀ p ∈ l, toolScore ql p.2 = 0) → l.foldl (detectStep ql) st = st := by
  intro l
  induction l with
  | nil => intro st _; rfl
  | cons x xs ih =>
    intro st h
    rw [List.foldl_cons]
    have hstep : detectStep ql st x = st := by
      simp [detectStep, h x (List.mem_cons_self _ _)]
    rw [hstep]
    exact ih st (fun p hp => h p (List.mem_cons_of_mem _ hp))

lemma toolMappings_fst_nodup : (toolMappings.map Prod.fst).Nodup := by decide

/-- C8: a query containing no keyword of any tool yields `detect_tool = None`
(total score 0 is below the threshold 5); a query whose only keyword
occurrence is a single whole-word match for one tool (and no keyword of any
other tool occurs) yields that tool. -/
theorem C8_tool_detection :
    (∀ q : String,
      (∀ p ∈ toolMappings, ∀ kw ∈ (Prod.snd p).keywords,
        containsSub (q.toList.map pyLower) kw.toList = false) →
      detectTool q = none) ∧
    (∀ (q T : String) (cfg : ToolConfig) (kw : String),
      (T, cfg) ∈ toolMappings → kw ∈ cfg.keywords →
      containsSub (q.toList.map pyLower) kw.toList = true →
      wholeWord kw.toList (q.toList.map pyLower) = true →
      (∀ p ∈ toolMappings, Prod.fst p ≠ T →
        ∀ kw' ∈ (Prod.snd p).keywords,
          containsSub (q.toList.map pyLower) kw'.toList = false) →
      detectTool q = some T) := by
  constructor
  · intro q h
    unfold detectTool
    show (if 5 ≤ (toolMappings.foldl (detectStep (q.toList.map pyLower))
          ((none : Option String), 0)).2
        then (toolMappings.foldl (detectStep (q.toList.map pyLower))
          ((none : Option String), 0)).1
        else none) = none
    rw [detect_foldl_zero _ _ (fun p hp => toolScore_zero (h p hp))]
    simp
  · intro q T cfg kw hmem hkw hsub hww hothers
    obtain ⟨s, t', hsplit⟩ := List.append_of_mem hmem
    have hnodup := toolMappings_fst_nodup
    rw [hsplit, List.map_append, List.map_cons] at hnodup
    rw [List.nodup_append] at hnodup
    obtain ⟨hnds, hndt, hdisj⟩ := hnodup
    have hTs : T ∉ s.map Prod.fst := fun hTs' => hdisj hTs' (List.mem_cons_self _ _)
    have hTt : T ∉ t'.map Prod.fst := (List.nodup_cons.mp hndt).1
    have hzero_s : ∀ p ∈ s, toolScore (q.toList.map pyLower) p.2 = 0 := by
      intro p hp
      apply toolScore_zero
      apply hothers p (hsplit ▸ List.mem_append_left _ hp)
      intro hpT
      exact hTs (hpT ▸ List.mem_map_of_mem Prod.fst hp)
    have hzero_t : ∀ p ∈ t', toolScore (q.toList.map pyLower) p.2 = 0 := by
      intro p hp
      apply toolScore_zero
      apply hothers p
        (hsplit ▸ List.mem_append_right _ (List.mem_cons_of_mem _ hp))
      intro hpT
      exact hTt (hpT ▸ List.mem_map_of_mem Prod.fst hp)
    have hscore : 10 ≤ toolScore (q.toList.map pyLower) cfg := by
      have hkwscore : keywordScore (q.toList.map pyLower) kw = 10 := by
        unfold keywordScore
        rw [hsub, hww]
        simp
      have := le_sum_of_mem
        (List.mem_map_of_mem (keywordScore (q.toList.map pyLower)) hkw)
      rw [hkwscore] at this
      exact this
    have hstep : detectStep (q.toList.map pyLower) (none, 0) (T, cfg) =
        (some T, toolScore (q.toList.map pyLower) cfg) := by
      simp only [detectStep]
      split
      · rfl
      · rename_i hlt
        exact absurd (by
          show 0 < toolScore (q.toList.map pyLower) cfg
          omega) hlt
    unfold detectTool
    show (if 5 ≤ (toolMappings.foldl (detectStep (q.toList.map pyLower))
          ((none : Option String), 0)).2
        then (toolMappings.foldl (detectStep (q.toList.map pyLower))
          ((none : Option String), 0)).1
        else none) = some T
    rw [hsplit, List.foldl_append, detect_foldl_zero _ _ hzero_s, List.foldl_cons,
      hstep, detect_foldl_zero _ _ hzero_t]
    split
    · rfl
    · rename_i hlt
      exact absurd (by
        show 5 ≤ toolScore (q.toList.map pyLower) cfg
        omega) hlt

/-- Witness for C8: `"que hora es"` contains no tool keyword and detects
nothing; `"canasta hoy"` contains the single whole-word keyword
`"canasta"` of `get_canasta_basica` and detects that tool. -/
theorem C8_tool_detection_witness :
    detectTool "que hora es" = none ∧
    detectTool "canasta hoy" = some "get_canasta_basica" := by
  constructor
  · exact C8_tool_detection.1 "que hora es" (by decide)
  · exact C8_tool_detection.2 "canasta hoy" "get_canasta_basica"
      { keywords := ["canasta", "canasta basica", "canasta básica", "alimentos",
          "costo de vida"],
        paramName := none, paramValues := [], description := "canasta básica" }
      "canasta" (by decide) (by decide) (by decide) (by decide) (by decide)

/-! ## KeywordDetector (`keyword_detector.py`) and
`MenuTree.find_node_by_keyword` (claim C9)

Scores here are `Int` because the action-query adjustment subtracts 3.
Float confidences are modelled as exact rationals (`0.95 = mkRat 19 20`,
etc.). -/

/-- The `action_words` list of `find_node_by_keyword`. -/
def actionWords : List String :=
  ["comparar", "comparacion", "comparación", "dame", "muéstrame", "muestrame",
   "cual es", "cuál es", "cuanto", "cuánto", "cuantos", "cuántos",
   "diferencia", "variacion", "variación", "crecimiento", "evolucion", "evolución"]

/-- Title score of `find_node_by_keyword`: exact cleaned match 20, substring
either way 15, shared long word 10. -/
def titleScore (textClean : List Char) (node : MenuNode) : Int :=
  if node.title ≠ "" then
    let titleClean := (node.title.toList.map pyLower).filter keepWordSpace
    if titleClean = textClean then 20
    else if containsSub textClean titleClean || containsSub titleClean textClean then 15
    else if (splitWS titleClean).any
        (fun w => decide (3 < w.length) && containsSub textClean w) then 10
    else 0
  else 0

/-- Keyword score of one node keyword in `find_node_by_keyword`: exact 10,
prefix/suffix 5, inner substring 1. -/
def nodeKeywordScore (textLower : List Char) (kw : String) : Int :=
  let kl := kw.toList.map pyLower
  if containsSub textLower kl then
    (if kl = textLower then 10
     else if leadsWith kl textLower || trailsWith kl textLower then 5
     else 1)
  else 0

/-- Summed keyword score of a node. -/
def nodeKeywordsScore (textLower : List Char) (node : MenuNode) : Int :=
  (node.keywords.map (nodeKeywordScore textLower)).sum

/-- Description score of `find_node_by_keyword`. -/
def descScore (textClean : List Char) (node : MenuNode) : Int :=
  if node.description ≠ "" then
    let descClean := (node.description.toList.map pyLower).filter keepWordSpace
    if descClean = textClean then 15
    else if containsSub textClean descClean || containsSub descClean textClean then 10
    else if (splitWS descClean).any
        (fun w => decide (4 < w.length) && containsSub textClean w) then 3
    else 0
  else 0

/-- Node-id score of `find_node_by_keyword`. -/
def idScore (textLower : List Char) (node : MenuNode) : Int :=
  let nid := node.id.toList.map pyLower
  if containsSub textLower nid || containsSub nid textLower then 3 else 0

/-- Total score of one node, with the action-query adjustment. -/
def nodeScore (textLower textClean : List Char) (isAction : Bool)
    (node : MenuNode) : Int :=
  let base := titleScore textClean node + nodeKeywordsScore textLower node +
    descScore textClean node + idScore textLower node
  if isAction && decide (0 < base) then
    (if node.action = "tool" then base + 10
     else if node.action = "menu" && !node.children.isEmpty then base - 3
     else base)
  else base

/-- The best-match update of `find_node_by_keyword`: strictly better score
wins; on a tie with positive score a `tool` node displaces `None` or a
`menu` node. -/
def fnbkStep (textLower textClean : List Char) (isAction : Bool)
    (st : Option MenuNode × Int) (node : MenuNode) : Option MenuNode × Int :=
  let score := nodeScore textLower textClean isAction node
  if st.2 < score then (some node, score)
  else if score = st.2 && decide (0 < score) && (node.action = "tool") &&
      (match st.1 with
       | none => true
       | some b => b.action = "menu") then
    (some node, st.2)
  else st

/-- The keyword-scan part of `find_node_by_keyword` (after the numeric
shortcut), with its minimum-score threshold of 5. -/
def fnbkSearch (tree : MenuTree) (textLower : List Char) : Option MenuNode :=
  let textClean := textLower.filter keepWordSpace
  let isAction := actionWords.any (fun w => containsSub textLower w.toList)
  let best := (tree.nodes.map Prod.snd).foldl
    (fnbkStep textLower textClean isAction) (none, 0)
  if 5 ≤ best.2 then best.1 else none

/-- `MenuTree.find_node_by_keyword`. -/
def findNodeByKeyword (tree : MenuTree) (text : String) : Option MenuNode :=
  let textLower := stripL (text.toList.map pyLower)
  match pyParseInt textLower with
  | some n =>
    (match getRoot tree with
     | some root =>
       if root.children ≠ [] ∧ 1 ≤ n ∧ n ≤ (root.children.length : Int) then
         getNode tree (root.children.getD ((n - 1).toNat) "")
       else fnbkSearch tree textLower
     | none => fnbkSearch tree textLower)
  | none => fnbkSearch tree textLower

/-- `KeywordDetector` state: the menu tree and the keywords harvested from
the database structure by `_load_database_keywords`. -/
structure KeywordDetector where
  tree : MenuTree
  dbKeywords : List String

/-- `KeywordDetector.common_keywords` in dict-insertion order. -/
def commonKeywords : List (String × List String) :=
  [("menu", ["menú", "menu", "inicio", "principal", "volver"]),
   ("back", ["atrás", "back", "volver", "anterior", "regresar"]),
   ("help", ["ayuda", "help", "como usar", "instrucciones", "información"]),
   ("ultimo", ["último", "ultimo", "última", "ultima", "reciente",
     "más reciente", "last"]),
   ("primero", ["primero", "primera", "inicial", "first"]),
   ("promedio", ["promedio", "media", "average", "mean"]),
   ("suma", ["suma", "total", "sum", "total"]),
   ("maximo", ["máximo", "maximo", "mayor", "highest", "max"]),
   ("minimo", ["mínimo", "minimo", "menor", "lowest", "min"]),
   ("economico", ["económico", "economico", "economía", "economia", "finanzas",
     "dinero", "presupuesto", "ingresos", "gastos", "inflación", "inflacion"]),
   ("socio", ["social", "sociedad", "demografía", "demografia", "población",
     "poblacion", "ciudadanos", "habitantes", "personas", "gente"]),
   ("datalake", ["datalake", "raw", "bruto", "crudo", "sin procesar"]),
   ("dwh", ["dwh", "warehouse", "almacén", "almacen", "procesado", "transformado"]),
   ("buscar", ["buscar", "busca", "encontrar", "muestra", "muéstrame", "dame",
     "dame", "quiero ver", "necesito", "información sobre", "datos de"]),
   ("estructura", ["estructura", "tablas", "columnas", "schema", "esquema",
     "base de datos", "qué hay", "que hay", "qué información", "que información"])]

/-- Access `common_keywords[cat]`. -/
def commonKeywordsOf (cat : String) : List String :=
  (List.lookup cat commonKeywords).getD []

/-- `KeywordDetector.query_patterns`, compiled to the token language. -/
def queryPatterns : List (List RTok × String) :=
  [([RTok.alts ["último".toList, "ultimo".toList, "última".toList,
      "ultima".toList, "más reciente".toList, "mas reciente".toList],
     RTok.wsPlus,
     RTok.alts ["valor".toList, "dato".toList, "registro".toList,
      "resultado".toList]], "ultimo"),
   ([RTok.alts ["primer".toList, "primera".toList, "inicial".toList],
     RTok.wsPlus,
     RTok.alts ["valor".toList, "dato".toList, "registro".toList,
      "resultado".toList]], "primero"),
   ([RTok.alts ["promedio".toList, "media".toList], RTok.wsPlus,
     RTok.alts ["de".toList, "del".toList, "de la".toList]], "promedio"),
   ([RTok.alts ["suma".toList, "total".toList], RTok.wsPlus,
     RTok.alts ["de".toList, "del".toList, "de la".toList]], "suma"),
   ([RTok.alts ["máximo".toList, "maximo".toList, "mayor".toList], RTok.wsPlus,
     RTok.alts ["valor".toList, "dato".toList]], "maximo"),
   ([RTok.alts ["mínimo".toList, "minimo".toList, "menor".toList], RTok.wsPlus,
     RTok.alts ["valor".toList, "dato".toList]], "minimo"),
   ([RTok.alts ["año".toList, "ano".toList, "años".toList, "anos".toList],
     RTok.wsPlus, RTok.digits 4], "year"),
   ([RTok.digits 4], "year"),
   ([RTok.alts ["mes".toList, "meses".toList], RTok.wsPlus,
     RTok.alts ["de".toList, "del".toList]], "month"),
   ([RTok.alts ["día".toList, "dia".toList, "días".toList, "dias".toList],
     RTok.wsPlus, RTok.alts ["de".toList, "del".toList]], "day")]

/-- The hardcoded `menu_term_mapping` of `detect_intent`. -/
def menuTermMapping : List (String × String) :=
  [("datos económicos", "economico"), ("datos economicos", "economico"),
   ("datos sociales", "socio"),
   ("datalake económico", "economico"), ("datalake economico", "economico"),
   ("datalake social", "socio"), ("datalake socio", "socio"),
   ("dwh económico", "economico"), ("dwh economico", "economico"),
   ("dwh social", "socio"), ("dwh socio", "socio"),
   ("información general", "general"), ("informacion general", "general")]

/-- The intent dictionary returned by `detect_intent`; keys absent from a
given return are the defaults. -/
structure PyIntent where
  type : String
  nodeId : Option String := none
  keywords : List String := []
  queryType : Option String := none
  dbQuery : Option String := none
  confidence : ℚ := 0
  dbMatches : List String := []
deriving DecidableEq, Repr

/-- The tail of `detect_intent` when no menu node was matched: the
`estructura` shortcut, else the `open` pass-through intent. -/
def detectIntentOpen (text : String) (queryType : Option String)
    (foundKeywords dbMatches : List String) : PyIntent :=
  if foundKeywords.contains "estructura" then
    { type := "query", nodeId := some "estructura", keywords := foundKeywords,
      dbQuery := some "structure", queryType := queryType,
      confidence := mkRat 9 10 }
  else
    { type := "open", keywords := foundKeywords, queryType := queryType,
      dbQuery := some text,
      confidence := if dbMatches ≠ [] then mkRat 4 5 else mkRat 3 5,
      dbMatches := dbMatches.take 10 }

/-- `detect_intent` after the numeric-selection branch has fallen through:
navigation commands, query-type patterns, common keywords, database-keyword
matches, the menu-term alias table, `find_node_by_keyword` with the
walk-up-to-a-menu-parent step, the `estructura` shortcut, and the `open`
fallback. -/
def detectIntentRest (kd : KeywordDetector) (text : String)
    (textLower : List Char) : PyIntent :=
  if (commonKeywordsOf "menu").any (fun kw => containsSub textLower kw.toList) then
    { type := "menu", nodeId := some "root", keywords := ["menu"], confidence := 1 }
  else if (commonKeywordsOf "back").any (fun kw => containsSub textLower kw.toList) then
    { type := "back", keywords := ["back"], confidence := 1 }
  else if (commonKeywordsOf "help").any (fun kw => containsSub textLower kw.toList) then
    { type := "menu", nodeId := some "ayuda", keywords := ["help"], confidence := 1 }
  else
    let queryType := (queryPatterns.find? (fun p => rsearch p.1 textLower)).map Prod.snd
    let foundKeywords0 := (commonKeywords.filter
      (fun ck => ck.2.any (fun kw => containsSub textLower kw.toList))).map Prod.fst
    let dbMatches := kd.dbKeywords.filter
      (fun dbk => containsSub textLower dbk.toList || containsSub dbk.toList textLower)
    let foundKeywords :=
      if !dbMatches.isEmpty then foundKeywords0 ++ ["database_match"] else foundKeywords0
    let matchedNodeId :=
      match (menuTermMapping.find? (fun tm => containsSub textLower tm.1.toList)).map
          Prod.snd with
      | some nid => some nid
      | none =>
        match findNodeByKeyword kd.tree text with
        | some menuNode =>
          if menuNode.action = "menu" then some menuNode.id
          else
            ((kd.tree.nodes.map Prod.snd).find? (fun parent =>
              !parent.children.isEmpty && parent.children.contains menuNode.id &&
                parent.action = "menu")).map MenuNode.id
        | none => none
    match matchedNodeId with
    | some mid =>
      (match getNode kd.tree mid with
       | some menuNode =>
         if menuNode.action = "menu" then
           { type := "menu", nodeId := some mid, keywords := menuNode.keywords,
             confidence := mkRat 19 20 }
         else detectIntentOpen text queryType foundKeywords dbMatches
       | none => detectIntentOpen text queryType foundKeywords dbMatches)
    | none => detectIntentOpen text queryType foundKeywords dbMatches

/-- `KeywordDetector.detect_intent`. -/
def detectIntent (kd : KeywordDetector) (text : String) : PyIntent :=
  let textLower := stripL (text.toList.map pyLower)
  match pyParseInt textLower with
  | some n =>
    (match getRoot kd.tree with
     | some root =>
       if root.children ≠ [] ∧ 1 ≤ n ∧ n ≤ (root.children.length : Int) then
         match getNode kd.tree (root.children.getD ((n - 1).toNat) "") with
         | some child =>
           { type := if child.action = "menu" then "menu" else "query",
             nodeId := some child.id,
             keywords := ["number_selection"],
             dbQuery := child.dbQuery,
             confidence := 1 }
         | none => detectIntentRest kd text textLower
       else detectIntentRest kd text textLower
     | none => detectIntentRest kd text textLower)
  | none => detectIntentRest kd text textLower

/-- Root of the C9 tree: one child `"a"`. -/
def c9Root : MenuNode :=
  { id := "root", title := "Inicio", description := "", action := "menu",
    children := ["a"], keywords := [], dbQuery := none, tool := none,
    toolArgs := [], infoText := none }

/-- Root's only child: a submenu node. -/
def c9NodeA : MenuNode :=
  { id := "a", title := "Submenu A", description := "", action := "menu",
    children := [], keywords := [], dbQuery := some "aq", tool := none,
    toolArgs := [], infoText := none }

/-- A query node, child of `"c"` (not of the root). -/
def c9NodeB : MenuNode :=
  { id := "b", title := "Consulta B", description := "", action := "query",
    children := [], keywords := [], dbQuery := some "bq", tool := none,
    toolArgs := [], infoText := none }

/-- A non-root menu node whose first child is the query node `"b"`. -/
def c9NodeC : MenuNode :=
  { id := "c", title := "Menu C", description := "", action := "menu",
    children := ["b"], keywords := [], dbQuery := none, tool := none,
    toolArgs := [], infoText := none }

/-- The C9 tree: the root's children differ from node `"c"`'s children. -/
def c9Tree : MenuTree :=
  { nodes := [("root", c9Root), ("a", c9NodeA), ("b", c9NodeB), ("c", c9NodeC)],
    rootNodeId := some "root" }

/-- The C9 detector state (no database keywords). -/
def c9Detector : KeywordDetector := { tree := c9Tree, dbKeywords := [] }

/-- C9 counterexample: `detect_intent` takes no current-node argument and
resolves numeric input against the ROOT's children, not the current node's.
With current node `"c"` (children `["b"]`, `"b"` a `query` node), input
`"1"` parses as 1 and the claim demands the intent for child `"b"` of type
`"query"`; the code instead returns the intent for the root's child `"a"`
with type `"menu"`. -/
theorem C9_counterexample :
    pyParseInt (stripL ("1".toList.map pyLower)) = some 1 ∧
    (getNode c9Tree "c").map MenuNode.children = some ["b"] ∧
    (getNode c9Tree "b").map MenuNode.action = some "query" ∧
    detectIntent c9Detector "1" =
      { type := "menu", nodeId := some "a", keywords := ["number_selection"],
        dbQuery := some "aq", confidence := 1 } ∧
    (detectIntent c9Detector "1").nodeId ≠ some "b" ∧
    (detectIntent c9Detector "1").type ≠ "query" := by
  refine ⟨by decide, by decide, by decide, by decide, by decide, by decide⟩

/-- C9 (amended): for every input whose lowered-stripped text parses as an
integer n, `detect_intent` resolves n 1-indexed against the ROOT's children
(the method has no current-node parameter); when the root exists with
non-empty children, n is in range, and the selected child id resolves in
the node map, it returns type `"menu"` or `"query"` according to the
child's action, node_id = the child's id, keywords `["number_selection"]`,
db_query = the child's db_query, and confidence 1.0. -/
theorem C9_numeric_selection (kd : KeywordDetector) (text : String) (n : Int)
    (root child : MenuNode)
    (hn : pyParseInt (stripL (text.toList.map pyLower)) = some n)
    (hroot : getRoot kd.tree = some root)
    (hrange : root.children ≠ [] ∧ 1 ≤ n ∧ n ≤ (root.children.length : Int))
    (hchild : getNode kd.tree (root.children.getD ((n - 1).toNat) "") = some child) :
    detectIntent kd text =
      { type := if child.action = "menu" then "menu" else "query",
        nodeId := some child.id, keywords := ["number_selection"],
        dbQuery := child.dbQuery, confidence := 1 } := by
  simp only [detectIntent]
  rw [hn]
  dsimp only
  rw [hroot]
  dsimp only
  rw [if_pos hrange, hchild]

/-- Concrete instantiation of `C9_numeric_selection` on the C9 tree. -/
theorem C9_numeric_selection_witness :
    detectIntent c9Detector "1" =
      { type := if c9NodeA.action = "menu" then "menu" else "query",
        nodeId := some c9NodeA.id, keywords := ["number_selection"],
        dbQuery := c9NodeA.dbQuery, confidence := 1 } :=
  C9_numeric_selection c9Detector "1" 1 c9Root c9NodeA (by decide) (by decide)
    ⟨by decide, by decide, by decide⟩ (by decide)

end Chatbot
